import Mathlib

/-!
Verification of the context-free (isolation) validation layer of the
rusty-kaspa consensus engine: block-body isolation checks
(`consensus/src/pipeline/body_processor/body_validation_in_isolation.rs`),
per-transaction isolation checks
(`consensus/src/processes/transaction_validator/tx_validation_in_isolation.rs`)
and the exported opcode numeric table (`consensus/client/src/script.rs`).

Machine integers (u8/u16/u32/u64/usize) are embedded as `Nat`; the only
places where overflow semantics matter are the u64 running sum of output
values (`checked_add`, embedded as an explicit comparison against
`U64_MAX`) and the saturating accumulation of block mass (`saturating_add`,
embedded as `satAdd`).  Hashes and transaction ids are opaque values
produced by collaborator oracles; they are embedded as `Nat`.
-/

namespace Kaspa

/-- Largest value of a u64; `checked_add` on u64 fails exactly when the
mathematical sum exceeds this bound. -/
def U64_MAX : Nat := 2 ^ 64 - 1

/-- u64 `saturating_add`. -/
def satAdd (a b : Nat) : Nat := min (a + b) U64_MAX

/-- `TransactionOutpoint`: pair of a transaction id (an opaque hash,
embedded as `Nat`) and a u32 output index. -/
structure TransactionOutpoint where
  transaction_id : Nat
  index : Nat
  deriving DecidableEq

/-- `TransactionInput` from `consensus/core/src/tx.rs` (collaborator data
model, reproduced as the validated content requires). -/
structure TransactionInput where
  previous_outpoint : TransactionOutpoint
  signature_script : List Nat
  sequence : Nat
  sig_op_count : Nat
  deriving DecidableEq

/-- `ScriptPublicKey`: version and script bytes. -/
structure ScriptPublicKey where
  version : Nat
  script : List Nat
  deriving DecidableEq

/-- `TransactionOutput`: a u64 sompi value and a script public key. -/
structure TransactionOutput where
  value : Nat
  script_public_key : ScriptPublicKey
  deriving DecidableEq

/-- `Transaction`.  The `mass` field is the committed contextual mass read
by `tx.mass()`; `id` is the cached transaction id, produced by the
collaborator's canonical serializer and hash (an oracle for this layer),
embedded as an opaque `Nat` carried by the transaction. -/
structure Transaction where
  version : Nat
  inputs : List TransactionInput
  outputs : List TransactionOutput
  lock_time : Nat
  subnetwork_id : Nat
  gas : Nat
  payload : List Nat
  mass : Nat
  id : Nat
  deriving DecidableEq

/-- The coinbase subnetwork id (`SUBNETWORK_ID_COINBASE`); subnetwork ids
are opaque 20-byte values, embedded as `Nat` with distinct constants. -/
def SUBNETWORK_ID_COINBASE : Nat := 1

/-- The native subnetwork id (`SUBNETWORK_ID_NATIVE`). -/
def SUBNETWORK_ID_NATIVE : Nat := 0

/-- `Transaction::is_coinbase`: the subnetwork id equals the coinbase
subnetwork id. -/
def Transaction.is_coinbase (tx : Transaction) : Bool :=
  decide (tx.subnetwork_id = SUBNETWORK_ID_COINBASE)

/-- Header fields used by body validation in isolation. -/
structure Header where
  hash_merkle_root : Nat
  daa_score : Nat
  deriving DecidableEq

/-- A block: header plus ordered transaction list. -/
structure Block where
  header : Header
  transactions : List Transaction
  deriving DecidableEq

/-- `TxRuleError` (transaction-level rule errors). -/
inductive TxRuleError where
  | NoTxInputs
  | TooManyInputs (n limit : Nat)
  | TooBigSignatureScript (i limit : Nat)
  | TooManyOutputs (n limit : Nat)
  | TooBigScriptPublicKey (i limit : Nat)
  | CoinbaseHasInputs (n : Nat)
  | CoinbaseTooManyOutputs (n limit : Nat)
  | CoinbaseScriptPublicKeyTooLong (i : Nat)
  | TxOutZero (i : Nat)
  | TxOutTooHigh (i : Nat)
  | OutputsValueOverflow
  | TotalTxOutTooHigh
  | TxDuplicateInputs
  | TxHasGas
  | NonCoinbaseTxHasPayload
  | UnknownTxVersion (v : Nat)
  deriving DecidableEq

/-- `RuleError` (block-level rule errors), restricted to the variants body
validation in isolation can produce. -/
inductive RuleError where
  | NoTransactions
  | BadMerkleRoot (expected calculated : Nat)
  | FirstTxNotCoinbase
  | MultipleCoinbases (i : Nat)
  | TxInIsolationValidationFailed (tx_id : Nat) (e : TxRuleError)
  | MassFieldTooLow (tx_id committed computed : Nat)
  | ExceedsMassLimit (limit : Nat)
  | DuplicateTransactions (id : Nat)
  | DoubleSpendInSameBlock (outpoint : TransactionOutpoint)
  | ChainedTransaction (outpoint : TransactionOutpoint)
  deriving DecidableEq

/-- `TransactionValidator` configuration.  `max_sompi` and `tx_version` are
modelled from the spec: the Rust code reads the crate constants `MAX_SOMPI`
and `TX_VERSION` from `consensus/src/constants.rs`, which is not among the
sources; the spec lists both among the per-network configuration constants
(spec section 6), so they are carried here as configuration fields. -/
structure TransactionValidator where
  max_tx_inputs : Nat
  max_tx_outputs : Nat
  max_signature_script_len : Nat
  max_script_public_key_len : Nat
  ghostdag_k : Nat
  coinbase_payload_script_public_key_max_len : Nat
  coinbase_maturity : Nat
  max_sompi : Nat
  tx_version : Nat

/-- `Iterator::position`: index of the first element satisfying `p`. -/
def position {α : Type} (p : α → Bool) : List α → Option Nat
  | [] => none
  | a :: rest => if p a then some 0 else (position p rest).map (· + 1)

namespace TransactionValidator

/-- `check_transaction_inputs_count`. -/
def check_transaction_inputs_count (v : TransactionValidator) (tx : Transaction) :
    Except TxRuleError Unit :=
  if tx.is_coinbase = false ∧ tx.inputs = [] then
    .error .NoTxInputs
  else if tx.inputs.length > v.max_tx_inputs then
    .error (.TooManyInputs tx.inputs.length v.max_tx_inputs)
  else
    .ok ()

/-- `check_transaction_signature_scripts`. -/
def check_transaction_signature_scripts (v : TransactionValidator) (tx : Transaction) :
    Except TxRuleError Unit :=
  match position (fun input => decide (input.signature_script.length > v.max_signature_script_len)) tx.inputs with
  | some i => .error (.TooBigSignatureScript i v.max_signature_script_len)
  | none => .ok ()

/-- `check_transaction_outputs_count`.  Note: the source populates the
error with `tx.inputs.len()` and `self.max_tx_inputs`, reproduced here
verbatim. -/
def check_transaction_outputs_count (v : TransactionValidator) (tx : Transaction) :
    Except TxRuleError Unit :=
  if tx.outputs.length > v.max_tx_outputs then
    .error (.TooManyOutputs tx.inputs.length v.max_tx_inputs)
  else
    .ok ()

/-- `check_transaction_script_public_keys`. -/
def check_transaction_script_public_keys (v : TransactionValidator) (tx : Transaction) :
    Except TxRuleError Unit :=
  match position (fun output => decide (output.script_public_key.script.length > v.max_script_public_key_len)) tx.outputs with
  | some i => .error (.TooBigScriptPublicKey i v.max_script_public_key_len)
  | none => .ok ()

/-- `check_coinbase_in_isolation`. -/
def check_coinbase_in_isolation (v : TransactionValidator) (tx : Transaction) :
    Except TxRuleError Unit :=
  if tx.is_coinbase = false then
    .ok ()
  else if tx.inputs ≠ [] then
    .error (.CoinbaseHasInputs tx.inputs.length)
  else if tx.outputs.length > v.ghostdag_k + 2 then
    .error (.CoinbaseTooManyOutputs tx.outputs.length (v.ghostdag_k + 2))
  else
    match position (fun output => decide (output.script_public_key.script.length > v.coinbase_payload_script_public_key_max_len)) tx.outputs with
    | some i => .error (.CoinbaseScriptPublicKeyTooLong i)
    | none => .ok ()

/-- `check_transaction_inputs_in_isolation`. -/
def check_transaction_inputs_in_isolation (v : TransactionValidator) (tx : Transaction) :
    Except TxRuleError Unit :=
  match v.check_transaction_inputs_count tx with
  | .error e => .error e
  | .ok _ => v.check_transaction_signature_scripts tx

/-- `check_transaction_outputs_in_isolation`. -/
def check_transaction_outputs_in_isolation (v : TransactionValidator) (tx : Transaction) :
    Except TxRuleError Unit :=
  match v.check_transaction_outputs_count tx with
  | .error e => .error e
  | .ok _ => v.check_transaction_script_public_keys tx

end TransactionValidator

/-- The loop of `check_duplicate_transaction_inputs`: a `HashSet` of the
outpoints seen so far, erroring on the first repeat. -/
def dup_input_scan (seen : List TransactionOutpoint) :
    List TransactionInput → Except TxRuleError Unit
  | [] => .ok ()
  | input :: rest =>
    if input.previous_outpoint ∈ seen then .error .TxDuplicateInputs
    else dup_input_scan (input.previous_outpoint :: seen) rest

/-- `check_duplicate_transaction_inputs` (free function). -/
def check_duplicate_transaction_inputs (tx : Transaction) : Except TxRuleError Unit :=
  dup_input_scan [] tx.inputs

/-- `check_gas` (free function). -/
def check_gas (tx : Transaction) : Except TxRuleError Unit :=
  if tx.gas > 0 then .error .TxHasGas else .ok ()

/-- `check_transaction_payload` (free function). -/
def check_transaction_payload (tx : Transaction) : Except TxRuleError Unit :=
  if tx.is_coinbase = false ∧ tx.payload ≠ [] then .error .NonCoinbaseTxHasPayload
  else .ok ()

/-- `check_transaction_version` (free function; `TX_VERSION` is the
configuration constant carried by the validator, see
`TransactionValidator`). -/
def check_transaction_version (v : TransactionValidator) (tx : Transaction) :
    Except TxRuleError Unit :=
  if tx.version ≠ v.tx_version then .error (.UnknownTxVersion tx.version)
  else .ok ()

/-- The loop of `check_transaction_output_value_ranges`: index `i`, u64
accumulator `total`; `checked_add` fails exactly when the mathematical sum
exceeds `U64_MAX`. -/
def value_ranges_scan (M : Nat) (i total : Nat) :
    List TransactionOutput → Except TxRuleError Unit
  | [] => .ok ()
  | output :: rest =>
    if output.value = 0 then .error (.TxOutZero i)
    else if output.value > M then .error (.TxOutTooHigh i)
    else if total + output.value > U64_MAX then .error .OutputsValueOverflow
    else if total + output.value > M then .error .TotalTxOutTooHigh
    else value_ranges_scan M (i + 1) (total + output.value) rest

/-- `check_transaction_output_value_ranges` (free function; `MAX_SOMPI` is
the configuration constant carried by the validator). -/
def check_transaction_output_value_ranges (v : TransactionValidator) (tx : Transaction) :
    Except TxRuleError Unit :=
  value_ranges_scan v.max_sompi 0 0 tx.outputs

/-- `TransactionValidator::validate_tx_in_isolation`. -/
def TransactionValidator.validate_tx_in_isolation (v : TransactionValidator) (tx : Transaction) :
    Except TxRuleError Unit :=
  match v.check_transaction_inputs_in_isolation tx with
  | .error e => .error e
  | .ok _ =>
  match v.check_transaction_outputs_in_isolation tx with
  | .error e => .error e
  | .ok _ =>
  match v.check_coinbase_in_isolation tx with
  | .error e => .error e
  | .ok _ =>
  match check_transaction_output_value_ranges v tx with
  | .error e => .error e
  | .ok _ =>
  match check_duplicate_transaction_inputs tx with
  | .error e => .error e
  | .ok _ =>
  match check_gas tx with
  | .error e => .error e
  | .ok _ =>
  match check_transaction_payload tx with
  | .error e => .error e
  | .ok _ => check_transaction_version v tx

/-- `BlockBodyProcessor` configuration together with its two stateless
collaborators, which this layer treats as deterministic pure oracles:
`mass_calculator` is `MassCalculator::calc_tx_compute_mass` and
`calc_hash_merkle_root_with_options` is the merkle-root function of
`consensus/core/src/merkle.rs` (both outside the sources; the spec
specifies them only as pure collaborator interfaces). -/
structure BlockBodyProcessor where
  storage_mass_activation_daa_score : Nat
  max_block_mass : Nat
  transaction_validator : TransactionValidator
  mass_calculator : Transaction → Nat
  calc_hash_merkle_root_with_options : List Transaction → Bool → Nat

namespace BlockBodyProcessor

/-- `check_has_transactions`. -/
def check_has_transactions (block : Block) : Except RuleError Unit :=
  if block.transactions = [] then .error .NoTransactions else .ok ()

/-- `check_hash_merkle_root`: recompute the root with the activation flag
and compare with the header field. -/
def check_hash_merkle_root (p : BlockBodyProcessor) (block : Block)
    (storage_mass_activated : Bool) : Except RuleError Unit :=
  if p.calc_hash_merkle_root_with_options block.transactions storage_mass_activated
      ≠ block.header.hash_merkle_root then
    .error (.BadMerkleRoot block.header.hash_merkle_root
      (p.calc_hash_merkle_root_with_options block.transactions storage_mass_activated))
  else
    .ok ()

/-- `check_only_one_coinbase`.  The Rust code indexes `transactions[0]`;
it is only ever called after `check_has_transactions`, so the empty case
(where Rust would panic) is mapped to `ok` and never reached from
`validate_body_in_isolation`. -/
def check_only_one_coinbase (block : Block) : Except RuleError Unit :=
  match block.transactions with
  | [] => .ok ()
  | t0 :: rest =>
    if t0.is_coinbase = false then .error .FirstTxNotCoinbase
    else
      match position (fun tx => tx.is_coinbase) rest with
      | some i => .error (.MultipleCoinbases i)
      | none => .ok ()

/-- The loop of `check_transactions_in_isolation`: delegate each
transaction to the transaction validator, wrapping the first failure. -/
def txs_isolation_scan (v : TransactionValidator) :
    List Transaction → Except RuleError Unit
  | [] => .ok ()
  | tx :: rest =>
    match v.validate_tx_in_isolation tx with
    | .error e => .error (.TxInIsolationValidationFailed tx.id e)
    | .ok _ => txs_isolation_scan v rest

/-- `check_transactions_in_isolation`. -/
def check_transactions_in_isolation (p : BlockBodyProcessor) (block : Block) :
    Except RuleError Unit :=
  txs_isolation_scan p.transaction_validator block.transactions

/-- The activated loop of `check_block_mass`: each transaction's committed
mass must reach its compute mass; committed masses accumulate with
saturating addition against `max_block_mass`. -/
def block_mass_activated_scan (p : BlockBodyProcessor) (total : Nat) :
    List Transaction → Except RuleError Nat
  | [] => .ok total
  | tx :: rest =>
    let calculated_tx_compute_mass := p.mass_calculator tx
    let committed_contextual_mass := tx.mass
    if committed_contextual_mass < calculated_tx_compute_mass then
      .error (.MassFieldTooLow tx.id committed_contextual_mass calculated_tx_compute_mass)
    else
      let total' := satAdd total committed_contextual_mass
      if total' > p.max_block_mass then .error (.ExceedsMassLimit p.max_block_mass)
      else block_mass_activated_scan p total' rest

/-- The non-activated loop of `check_block_mass`: compute masses accumulate
with saturating addition against `max_block_mass`. -/
def block_mass_plain_scan (p : BlockBodyProcessor) (total : Nat) :
    List Transaction → Except RuleError Nat
  | [] => .ok total
  | tx :: rest =>
    let calculated_tx_mass := p.mass_calculator tx
    let total' := satAdd total calculated_tx_mass
    if total' > p.max_block_mass then .error (.ExceedsMassLimit p.max_block_mass)
    else block_mass_plain_scan p total' rest

/-- `check_block_mass`. -/
def check_block_mass (p : BlockBodyProcessor) (block : Block)
    (storage_mass_activated : Bool) : Except RuleError Nat :=
  if storage_mass_activated then block_mass_activated_scan p 0 block.transactions
  else block_mass_plain_scan p 0 block.transactions

/-- The loop of `check_block_double_spends`: a `HashSet` of outpoints over
the concatenated inputs of all transactions, erroring on the first
repeat. -/
def double_spend_scan (seen : List TransactionOutpoint) :
    List TransactionInput → Except RuleError Unit
  | [] => .ok ()
  | input :: rest =>
    if input.previous_outpoint ∈ seen then
      .error (.DoubleSpendInSameBlock input.previous_outpoint)
    else double_spend_scan (input.previous_outpoint :: seen) rest

/-- `check_block_double_spends`. -/
def check_block_double_spends (block : Block) : Except RuleError Unit :=
  double_spend_scan [] (block.transactions.flatMap (fun tx => tx.inputs))

/-- The outpoints created by the block's transactions: `(tx.id(), index)`
for every transaction and every index below its output count. -/
def block_created_outpoints (block : Block) : List TransactionOutpoint :=
  block.transactions.flatMap
    (fun tx => (List.range tx.outputs.length).map
      (fun index => TransactionOutpoint.mk tx.id index))

/-- The second loop of `check_no_chained_transactions`: error on the first
input whose previous outpoint is one the block itself creates. -/
def chained_scan (created : List TransactionOutpoint) :
    List TransactionInput → Except RuleError Unit
  | [] => .ok ()
  | input :: rest =>
    if input.previous_outpoint ∈ created then
      .error (.ChainedTransaction input.previous_outpoint)
    else chained_scan created rest

/-- `check_no_chained_transactions`. -/
def check_no_chained_transactions (block : Block) : Except RuleError Unit :=
  chained_scan (block_created_outpoints block)
    (block.transactions.flatMap (fun tx => tx.inputs))

/-- The loop of `check_duplicate_transactions`: a `HashSet` of ids,
erroring on the first repeated transaction id. -/
def duplicate_tx_scan (ids : List Nat) : List Transaction → Except RuleError Unit
  | [] => .ok ()
  | tx :: rest =>
    if tx.id ∈ ids then .error (.DuplicateTransactions tx.id)
    else duplicate_tx_scan (tx.id :: ids) rest

/-- `check_duplicate_transactions`. -/
def check_duplicate_transactions (block : Block) : Except RuleError Unit :=
  duplicate_tx_scan [] block.transactions

/-- The local binding `storage_mass_activated` of
`validate_body_in_isolation`: the block's daa score strictly exceeds the
activation daa score. -/
def storage_mass_activated (p : BlockBodyProcessor) (block : Block) : Bool :=
  decide (block.header.daa_score > p.storage_mass_activation_daa_score)

/-- `BlockBodyProcessor::validate_body_in_isolation`. -/
def validate_body_in_isolation (p : BlockBodyProcessor) (block : Block) :
    Except RuleError Nat :=
  match check_has_transactions block with
  | .error e => .error e
  | .ok _ =>
  match p.check_hash_merkle_root block (storage_mass_activated p block) with
  | .error e => .error e
  | .ok _ =>
  match check_only_one_coinbase block with
  | .error e => .error e
  | .ok _ =>
  match p.check_transactions_in_isolation block with
  | .error e => .error e
  | .ok _ =>
  match p.check_block_mass block (storage_mass_activated p block) with
  | .error e => .error e
  | .ok mass =>
  match check_duplicate_transactions block with
  | .error e => .error e
  | .ok _ =>
  match check_block_double_spends block with
  | .error e => .error e
  | .ok _ =>
  match check_no_chained_transactions block with
  | .error e => .error e
  | .ok _ => .ok mass

end BlockBodyProcessor

/-- The error of the first failing check in an ordered list of check
results, if any. -/
def firstError {ε : Type} : List (Except ε Unit) → Option ε
  | [] => none
  | .error e :: _ => some e
  | .ok _ :: rest => firstError rest

/-- Run an ordered list of check results, short-circuiting on the first
error. -/
def chainRun {ε : Type} : List (Except ε Unit) → Except ε Unit
  | [] => .ok ()
  | .error e :: _ => .error e
  | .ok _ :: rest => chainRun rest

theorem chainRun_error_iff {ε : Type} (l : List (Except ε Unit)) (e : ε) :
    chainRun l = .error e ↔ firstError l = some e := by
  induction l with
  | nil => simp [chainRun, firstError]
  | cons c rest ih =>
    cases c with
    | error e0 => simp [chainRun, firstError]
    | ok u => simpa [chainRun, firstError] using ih

theorem chainRun_ok_iff {ε : Type} (l : List (Except ε Unit)) :
    chainRun l = .ok () ↔ firstError l = none := by
  induction l with
  | nil => simp [chainRun, firstError]
  | cons c rest ih =>
    cases c with
    | error e0 => simp [chainRun, firstError]
    | ok u => simpa [chainRun, firstError] using ih

/-- The ten per-transaction isolation checks, in the order the claim
lists them. -/
def tx_isolation_checks (v : TransactionValidator) (tx : Transaction) :
    List (Except TxRuleError Unit) :=
  [v.check_transaction_inputs_count tx,
   v.check_transaction_signature_scripts tx,
   v.check_transaction_outputs_count tx,
   v.check_transaction_script_public_keys tx,
   v.check_coinbase_in_isolation tx,
   check_transaction_output_value_ranges v tx,
   check_duplicate_transaction_inputs tx,
   check_gas tx,
   check_transaction_payload tx,
   check_transaction_version v tx]

theorem validate_tx_eq_chainRun (v : TransactionValidator) (tx : Transaction) :
    v.validate_tx_in_isolation tx = chainRun (tx_isolation_checks v tx) := by
  unfold TransactionValidator.validate_tx_in_isolation
  unfold TransactionValidator.check_transaction_inputs_in_isolation
  unfold TransactionValidator.check_transaction_outputs_in_isolation
  unfold tx_isolation_checks
  cases v.check_transaction_inputs_count tx with
  | error e => rfl
  | ok u =>
  cases v.check_transaction_signature_scripts tx with
  | error e => rfl
  | ok u2 =>
  cases v.check_transaction_outputs_count tx with
  | error e => rfl
  | ok u3 =>
  cases v.check_transaction_script_public_keys tx with
  | error e => rfl
  | ok u4 =>
  cases v.check_coinbase_in_isolation tx with
  | error e => rfl
  | ok u5 =>
  cases check_transaction_output_value_ranges v tx with
  | error e => rfl
  | ok u6 =>
  cases check_duplicate_transaction_inputs tx with
  | error e => rfl
  | ok u7 =>
  cases check_gas tx with
  | error e => rfl
  | ok u8 =>
  cases check_transaction_payload tx with
  | error e => rfl
  | ok u9 =>
  cases check_transaction_version v tx with
  | error e => rfl
  | ok u10 => cases u10; rfl

/-- C6: `validate_tx_in_isolation` performs its checks in the order
inputs count, signature-script sizes, outputs count, script-public-key
sizes, coinbase shape, output value ranges, duplicate inputs, gas,
payload, version; it returns the error of the first failing check, and
accepts exactly when every check passes. -/
theorem validate_tx_in_isolation_order (v : TransactionValidator) (tx : Transaction) :
    (∀ e, v.validate_tx_in_isolation tx = .error e ↔
      firstError (tx_isolation_checks v tx) = some e) ∧
    (v.validate_tx_in_isolation tx = .ok () ↔
      firstError (tx_isolation_checks v tx) = none) := by
  rw [validate_tx_eq_chainRun]
  exact ⟨fun e => chainRun_error_iff _ e, chainRun_ok_iff _⟩

namespace BlockBodyProcessor

/-- The eight block-body isolation checks, in the order the claim lists
them; the mass check is reduced to its pass/fail outcome. -/
def body_isolation_checks (p : BlockBodyProcessor) (b : Block) :
    List (Except RuleError Unit) :=
  [check_has_transactions b,
   p.check_hash_merkle_root b (storage_mass_activated p b),
   check_only_one_coinbase b,
   p.check_transactions_in_isolation b,
   (p.check_block_mass b (storage_mass_activated p b)).map (fun _ => ()),
   check_duplicate_transactions b,
   check_block_double_spends b,
   check_no_chained_transactions b]

theorem validate_body_firstError (p : BlockBodyProcessor) (b : Block) :
    (∀ e, p.validate_body_in_isolation b = .error e ↔
      firstError (body_isolation_checks p b) = some e) ∧
    (∀ m, p.validate_body_in_isolation b = .ok m ↔
      (firstError (body_isolation_checks p b) = none ∧
       p.check_block_mass b (storage_mass_activated p b) = .ok m)) := by
  unfold validate_body_in_isolation body_isolation_checks
  cases check_has_transactions b with
  | error e => simp [firstError]
  | ok u1 =>
  cases p.check_hash_merkle_root b (storage_mass_activated p b) with
  | error e => simp [firstError]
  | ok u2 =>
  cases check_only_one_coinbase b with
  | error e => simp [firstError]
  | ok u3 =>
  cases p.check_transactions_in_isolation b with
  | error e => simp [firstError]
  | ok u4 =>
  cases p.check_block_mass b (storage_mass_activated p b) with
  | error e => simp [firstError, Except.map]
  | ok mass =>
  cases check_duplicate_transactions b with
  | error e => simp [firstError, Except.map]
  | ok u5 =>
  cases check_block_double_spends b with
  | error e => simp [firstError, Except.map]
  | ok u6 =>
  cases check_no_chained_transactions b with
  | error e => simp [firstError, Except.map]
  | ok u7 => simp [firstError, Except.map]

/-- C1: `validate_body_in_isolation` runs its checks in the order
has-transactions, hash-merkle-root, only-one-coinbase, per-transaction
isolation, block mass, duplicate transactions, double-spend within block,
chained transactions; it returns the error of the first failing check and
nothing else, and when every check passes it returns the block mass
accumulated by the mass check. -/
theorem validate_body_in_isolation_order (p : BlockBodyProcessor) (b : Block) :
    (∀ e, p.validate_body_in_isolation b = .error e ↔
      firstError (body_isolation_checks p b) = some e) ∧
    (∀ m, p.validate_body_in_isolation b = .ok m ↔
      (firstError (body_isolation_checks p b) = none ∧
       p.check_block_mass b (storage_mass_activated p b) = .ok m)) :=
  validate_body_firstError p b

/-- A single pass over the transactions as the mass step is specified:
when activated, each transaction's committed mass is required to reach its
compute mass and committed masses are accumulated; when not activated,
compute masses are accumulated; accumulation is saturating and the limit
is checked as soon as the running sum exceeds it. -/
def mass_step_spec_scan (p : BlockBodyProcessor) (A : Bool) (total : Nat) :
    List Transaction → Except RuleError Nat
  | [] => .ok total
  | tx :: rest =>
    let computed := p.mass_calculator tx
    if A = true ∧ tx.mass < computed then
      .error (.MassFieldTooLow tx.id tx.mass computed)
    else
      let total' := satAdd total (if A then tx.mass else computed)
      if total' > p.max_block_mass then .error (.ExceedsMassLimit p.max_block_mass)
      else mass_step_spec_scan p A total' rest

/-- The saturating sum of a list of masses on top of `total`. -/
def satSum (total : Nat) (l : List Nat) : Nat := l.foldl satAdd total

theorem block_mass_activated_eq_spec (p : BlockBodyProcessor) :
    ∀ (l : List Transaction) (total : Nat),
      block_mass_activated_scan p total l = mass_step_spec_scan p true total l := by
  intro l
  induction l with
  | nil => intro total; rfl
  | cons tx rest ih =>
    intro total
    unfold block_mass_activated_scan mass_step_spec_scan
    by_cases h : tx.mass < p.mass_calculator tx
    · simp [h]
    · by_cases h2 : satAdd total tx.mass > p.max_block_mass
      · simp [h, h2]
      · simp [h, h2, ih]

theorem block_mass_plain_eq_spec (p : BlockBodyProcessor) :
    ∀ (l : List Transaction) (total : Nat),
      block_mass_plain_scan p total l = mass_step_spec_scan p false total l := by
  intro l
  induction l with
  | nil => intro total; rfl
  | cons tx rest ih =>
    intro total
    unfold block_mass_plain_scan mass_step_spec_scan
    by_cases h2 : satAdd total (p.mass_calculator tx) > p.max_block_mass
    · simp [h2]
    · simp [h2, ih]

theorem mass_step_spec_scan_ok (p : BlockBodyProcessor) (A : Bool) :
    ∀ (l : List Transaction) (total m : Nat),
      mass_step_spec_scan p A total l = .ok m →
      m = satSum total (l.map (fun tx => if A then tx.mass else p.mass_calculator tx)) := by
  intro l
  induction l with
  | nil =>
    intro total m h
    simpa [mass_step_spec_scan, satSum] using h.symm
  | cons tx rest ih =>
    intro total m h
    unfold mass_step_spec_scan at h
    by_cases h1 : A = true ∧ tx.mass < p.mass_calculator tx
    · simp [h1] at h
    · simp only [h1, if_neg, if_false] at h
      by_cases h2 : satAdd total (if A then tx.mass else p.mass_calculator tx) > p.max_block_mass
      · simp [h2] at h
      · simp [h2] at h
        simpa [satSum] using ih _ m h

/-- C2: the mass step.  `check_block_mass` coincides, for both values of
the activation flag, with the single specified scan (activated: committed
mass must reach compute mass, committed masses accumulate; otherwise
compute masses accumulate; saturating addition, limit checked as soon as
the sum exceeds `max_block_mass`); the activation flag used by
`validate_body_in_isolation` is `daa_score > storage_mass_activation_daa_score`;
and the value returned on success is the saturating sum of the
accumulated masses, which is exactly what `validate_body_in_isolation`
returns. -/
theorem check_block_mass_spec_correct (p : BlockBodyProcessor) (b : Block) :
    (∀ A, p.check_block_mass b A = mass_step_spec_scan p A 0 b.transactions) ∧
    (storage_mass_activated p b
      = decide (b.header.daa_score > p.storage_mass_activation_daa_score)) ∧
    (∀ m, p.check_block_mass b (storage_mass_activated p b) = .ok m →
      m = satSum 0 (b.transactions.map
        (fun tx => if storage_mass_activated p b then tx.mass else p.mass_calculator tx))) ∧
    (∀ m, p.validate_body_in_isolation b = .ok m →
      p.check_block_mass b (storage_mass_activated p b) = .ok m) := by
  refine ⟨?_, rfl, ?_, ?_⟩
  · intro A
    cases A with
    | false =>
      simpa [check_block_mass] using block_mass_plain_eq_spec p b.transactions 0
    | true =>
      simpa [check_block_mass] using block_mass_activated_eq_spec p b.transactions 0
  · intro m h
    apply mass_step_spec_scan_ok p (storage_mass_activated p b) b.transactions 0 m
    cases hA : storage_mass_activated p b with
    | false =>
      rw [hA] at h
      simpa [check_block_mass, ← block_mass_plain_eq_spec] using h
    | true =>
      rw [hA] at h
      simpa [check_block_mass, ← block_mass_activated_eq_spec] using h
  · intro m h
    exact ((validate_body_firstError p b).2 m |>.mp h).2

end BlockBodyProcessor

/-! ### Concrete fixtures used by witnesses and counterexamples -/

/-- A small validator configuration. -/
def cfgV : TransactionValidator :=
  { max_tx_inputs := 10, max_tx_outputs := 10, max_signature_script_len := 100,
    max_script_public_key_len := 100, ghostdag_k := 10,
    coinbase_payload_script_public_key_max_len := 150, coinbase_maturity := 100,
    max_sompi := 1000000, tx_version := 0 }

/-- A coinbase transaction with no outputs. -/
def cbTx : Transaction :=
  { version := 0, inputs := [], outputs := [], lock_time := 0,
    subnetwork_id := SUBNETWORK_ID_COINBASE, gas := 0, payload := [], mass := 0, id := 10 }

/-- An input spending outpoint `(10, 0)`, i.e. output index 0 of the
transaction with id 10. -/
def inpSpendingTen : TransactionInput :=
  { previous_outpoint := { transaction_id := 10, index := 0 },
    signature_script := [], sequence := 0, sig_op_count := 0 }

/-- A native transaction with one input spending `(10, 0)` and no
outputs. -/
def nativeTx : Transaction :=
  { version := 0, inputs := [inpSpendingTen], outputs := [], lock_time := 0,
    subnetwork_id := SUBNETWORK_ID_NATIVE, gas := 0, payload := [], mass := 0, id := 20 }

/-- A processor whose collaborators are the constant oracles: every
transaction has compute mass 1 and every merkle root is 7. -/
def P0 : BlockBodyProcessor :=
  { storage_mass_activation_daa_score := 100, max_block_mass := 1000,
    transaction_validator := cfgV, mass_calculator := fun _ => 1,
    calc_hash_merkle_root_with_options := fun _ _ => 7 }

/-- A block whose second transaction spends outpoint `(10, 0)` where 10 is
the id of the block's own coinbase — which has no outputs, so the outpoint
is not one the block creates. -/
def B0 : Block :=
  { header := { hash_merkle_root := 7, daa_score := 0 }, transactions := [cbTx, nativeTx] }

/-- C5 counterexample: in block `B0`, an input references the outpoint
`(cbTx.id, 0)` and `cbTx` is a transaction of the same block, yet
`validate_body_in_isolation` succeeds (returning mass 2) instead of
failing with `ChainedTransaction`: the code only treats indices below the
referenced transaction's output count as chained, and `cbTx` has no
outputs. -/
theorem chained_any_index_counterexample :
    nativeTx ∈ B0.transactions ∧ cbTx ∈ B0.transactions ∧
    nativeTx.inputs.map (fun i => i.previous_outpoint)
      = [{ transaction_id := cbTx.id, index := 0 }] ∧
    BlockBodyProcessor.validate_body_in_isolation P0 B0 = .ok 2 := by
  refine ⟨?_, ?_, rfl, rfl⟩ <;> simp [B0]

/-- A validator allowing at most one output. -/
def cfg3 : TransactionValidator := { cfgV with max_tx_outputs := 1 }

/-- A small output of value 5 with an empty script. -/
def outSmall : TransactionOutput :=
  { value := 5, script_public_key := { version := 0, script := [] } }

/-- A native transaction with one input and two outputs. -/
def tx3 : Transaction :=
  { version := 0, inputs := [inpSpendingTen], outputs := [outSmall, outSmall],
    lock_time := 0, subnetwork_id := SUBNETWORK_ID_NATIVE, gas := 0, payload := [],
    mass := 0, id := 30 }

/-- C3: the outputs-count check fires (the transaction has 2 outputs
against a limit of 1) but the `TooManyOutputs` error it returns carries
the transaction's input count (1) and the configured `max_tx_inputs`
(10) — not the output count and `max_tx_outputs` the claim states. -/
theorem check_transaction_outputs_count_bug :
    tx3.outputs.length = 2 ∧ cfg3.max_tx_outputs = 1 ∧
    tx3.inputs.length = 1 ∧ cfg3.max_tx_inputs = 10 ∧
    TransactionValidator.check_transaction_outputs_count cfg3 tx3
      = .error (.TooManyOutputs 1 10) ∧
    TransactionValidator.validate_tx_in_isolation cfg3 tx3
      = .error (.TooManyOutputs 1 10) :=
  ⟨rfl, rfl, rfl, rfl, rfl, rfl⟩

/-! ### The chained-transactions check (C5) -/

namespace BlockBodyProcessor

theorem chained_scan_all_ok (created : List TransactionOutpoint) :
    ∀ l, (∀ i ∈ l, i.previous_outpoint ∉ created) → chained_scan created l = .ok () := by
  intro l
  induction l with
  | nil => intro h; rfl
  | cons i rest ih =>
    intro h
    have hi : i.previous_outpoint ∉ created := h i (List.mem_cons_self i rest)
    simpa [chained_scan, hi] using ih (fun j hj => h j (List.mem_cons_of_mem i hj))

theorem chained_scan_finds (created : List TransactionOutpoint) :
    ∀ l, (∃ i ∈ l, i.previous_outpoint ∈ created) →
      ∃ o, o ∈ created ∧ (∃ i ∈ l, i.previous_outpoint = o) ∧
        chained_scan created l = .error (.ChainedTransaction o) := by
  intro l
  induction l with
  | nil => rintro ⟨i, hi, _⟩; exact absurd hi (List.not_mem_nil i)
  | cons i rest ih =>
    rintro ⟨j, hj, hjc⟩
    by_cases hi : i.previous_outpoint ∈ created
    · exact ⟨i.previous_outpoint, hi, ⟨i, List.mem_cons_self i rest, rfl⟩,
        by simp [chained_scan, hi]⟩
    · have hjrest : j ∈ rest := by
        rcases List.mem_cons.mp hj with h | h
        · exact absurd (h ▸ hjc) hi
        · exact h
      obtain ⟨o, ho, ⟨j2, hj2, hj2eq⟩, hscan⟩ := ih ⟨j, hjrest, hjc⟩
      exact ⟨o, ho, ⟨j2, List.mem_cons_of_mem i hj2, hj2eq⟩, by simp [chained_scan, hi, hscan]⟩

theorem mem_block_created_outpoints (b : Block) (o : TransactionOutpoint) :
    o ∈ block_created_outpoints b ↔
      ∃ txj, txj ∈ b.transactions ∧ ∃ k, k < txj.outputs.length ∧
        o = TransactionOutpoint.mk txj.id k := by
  simp only [block_created_outpoints, List.mem_flatMap, List.mem_map, List.mem_range]
  constructor
  · rintro ⟨tx, htx, k, hk, h⟩
    exact ⟨tx, htx, k, hk, h.symm⟩
  · rintro ⟨tx, htx, k, hk, h⟩
    exact ⟨tx, htx, k, hk, h.symm⟩

theorem validate_body_last_step (p : BlockBodyProcessor) (b : Block) (m : Nat)
    (h1 : check_has_transactions b = .ok ())
    (h2 : p.check_hash_merkle_root b (storage_mass_activated p b) = .ok ())
    (h3 : check_only_one_coinbase b = .ok ())
    (h4 : p.check_transactions_in_isolation b = .ok ())
    (h5 : p.check_block_mass b (storage_mass_activated p b) = .ok m)
    (h6 : check_duplicate_transactions b = .ok ())
    (h7 : check_block_double_spends b = .ok ()) :
    p.validate_body_in_isolation b =
      match check_no_chained_transactions b with
      | .error e => .error e
      | .ok _ => .ok m := by
  simp only [validate_body_in_isolation, h1, h2, h3, h4, h5, h6, h7]

/-- C5, amended: for every block that passes the preceding checks, if any
input of any of its transactions references an outpoint `(txj.id, k)`
where `txj` is a transaction of the same block and `k` is below `txj`'s
output count (an outpoint the block itself creates), then
`validate_body_in_isolation` fails with `ChainedTransaction` carrying such
an outpoint; if no input references a block-created outpoint, validation
succeeds with the accumulated mass. -/
theorem check_no_chained_transactions_created_only
    (p : BlockBodyProcessor) (b : Block) (m : Nat)
    (h1 : check_has_transactions b = .ok ())
    (h2 : p.check_hash_merkle_root b (storage_mass_activated p b) = .ok ())
    (h3 : check_only_one_coinbase b = .ok ())
    (h4 : p.check_transactions_in_isolation b = .ok ())
    (h5 : p.check_block_mass b (storage_mass_activated p b) = .ok m)
    (h6 : check_duplicate_transactions b = .ok ())
    (h7 : check_block_double_spends b = .ok ()) :
    ((∃ tx, tx ∈ b.transactions ∧ ∃ input, input ∈ tx.inputs ∧
        ∃ txj, txj ∈ b.transactions ∧ ∃ k, k < txj.outputs.length ∧
          input.previous_outpoint = TransactionOutpoint.mk txj.id k) →
      ∃ o, (∃ txj, txj ∈ b.transactions ∧ ∃ k, k < txj.outputs.length ∧
              o = TransactionOutpoint.mk txj.id k) ∧
        (∃ tx, tx ∈ b.transactions ∧ ∃ input, input ∈ tx.inputs ∧
          input.previous_outpoint = o) ∧
        p.validate_body_in_isolation b = .error (.ChainedTransaction o)) ∧
    ((¬ ∃ tx, tx ∈ b.transactions ∧ ∃ input, input ∈ tx.inputs ∧
        ∃ txj, txj ∈ b.transactions ∧ ∃ k, k < txj.outputs.length ∧
          input.previous_outpoint = TransactionOutpoint.mk txj.id k) →
      p.validate_body_in_isolation b = .ok m) := by
  have hval := validate_body_last_step p b m h1 h2 h3 h4 h5 h6 h7
  constructor
  · rintro ⟨tx, htx, input, hin, txj, htxj, k, hk, heq⟩
    have hflat : input ∈ b.transactions.flatMap (fun tx => tx.inputs) :=
      List.mem_flatMap.mpr ⟨tx, htx, hin⟩
    have hcre : input.previous_outpoint ∈ block_created_outpoints b :=
      (mem_block_created_outpoints b _).mpr ⟨txj, htxj, k, hk, heq⟩
    obtain ⟨o, ho, ⟨i2, hi2, hi2eq⟩, hscan⟩ :=
      chained_scan_finds (block_created_outpoints b) _ ⟨input, hflat, hcre⟩
    obtain ⟨tx2, htx2, hi2in⟩ := List.mem_flatMap.mp hi2
    refine ⟨o, (mem_block_created_outpoints b o).mp ho,
      ⟨tx2, htx2, i2, hi2in, hi2eq⟩, ?_⟩
    rw [hval]
    have : check_no_chained_transactions b = .error (.ChainedTransaction o) := hscan
    rw [this]
  · intro hnone
    have hok : check_no_chained_transactions b = .ok () := by
      apply chained_scan_all_ok
      intro i hi hic
      obtain ⟨tx, htx, hin⟩ := List.mem_flatMap.mp hi
      obtain ⟨txj, htxj, k, hk, heq⟩ := (mem_block_created_outpoints b _).mp hic
      exact hnone ⟨tx, htx, i, hin, txj, htxj, k, hk, heq⟩
    rw [hval, hok]

end BlockBodyProcessor

/-- The block's coinbase, now with one output, so that outpoint
`(cbTx.id, 0)` is created by the block. -/
def cbTxWithOutput : Transaction := { cbTx with outputs := [outSmall] }

/-- A block whose second transaction spends output 0 of its own
coinbase. -/
def B5 : Block :=
  { header := { hash_merkle_root := 7, daa_score := 0 },
    transactions := [cbTxWithOutput, nativeTx] }

/-- Witness for the amended C5, at block `B5`. -/
theorem chained_created_witness :
    ∃ o, (∃ txj, txj ∈ B5.transactions ∧ ∃ k, k < txj.outputs.length ∧
            o = Kaspa.TransactionOutpoint.mk txj.id k) ∧
      (∃ tx, tx ∈ B5.transactions ∧ ∃ input, input ∈ tx.inputs ∧
        input.previous_outpoint = o) ∧
      BlockBodyProcessor.validate_body_in_isolation P0 B5
        = .error (.ChainedTransaction o) :=
  (BlockBodyProcessor.check_no_chained_transactions_created_only P0 B5 2
      rfl rfl rfl rfl rfl rfl rfl).1
    ⟨nativeTx, by decide, inpSpendingTen, by decide, cbTxWithOutput, by decide, 0,
      by decide, rfl⟩

/-! ### Generic facts about the sequenced checks -/

theorem chainRun_ok_mem {ε : Type} :
    ∀ l : List (Except ε Unit), chainRun l = .ok () → ∀ c ∈ l, c = .ok () := by
  intro l
  induction l with
  | nil => intro _ c hc; exact absurd hc (List.not_mem_nil c)
  | cons c0 rest ih =>
    intro h c hc
    cases c0 with
    | error e => simp [chainRun] at h
    | ok u =>
      rcases List.mem_cons.mp hc with rfl | hcr
      · cases u; rfl
      · exact ih (by simpa [chainRun] using h) c hcr

theorem chainRun_all_ok {ε : Type} :
    ∀ l : List (Except ε Unit), (∀ c ∈ l, c = .ok ()) → chainRun l = .ok () := by
  intro l
  induction l with
  | nil => intro _; rfl
  | cons c0 rest ih =>
    intro h
    have h0 : c0 = .ok () := h c0 (List.mem_cons_self _ _)
    subst h0
    simpa [chainRun] using ih (fun c hc => h c (List.mem_cons_of_mem _ hc))

/-! ### Duplicate-input and duplicate-transaction scans -/

theorem dup_input_scan_ok_iff :
    ∀ (l : List TransactionInput) (seen : List TransactionOutpoint),
      dup_input_scan seen l = .ok () ↔
        ((l.map (fun i => i.previous_outpoint)).Nodup ∧
         ∀ x ∈ l.map (fun i => i.previous_outpoint), x ∉ seen) := by
  intro l
  induction l with
  | nil => intro seen; simp [dup_input_scan]
  | cons i rest ih =>
    intro seen
    simp only [dup_input_scan, List.map_cons]
    by_cases hi : i.previous_outpoint ∈ seen
    · rw [if_pos hi]
      constructor
      · intro h; exact absurd h (by simp)
      · rintro ⟨-, hall⟩
        exact absurd hi (hall _ (List.mem_cons_self _ _))
    · rw [if_neg hi, ih]
      constructor
      · rintro ⟨hnd, hall⟩
        refine ⟨List.nodup_cons.mpr
          ⟨fun hmem => (hall _ hmem) (List.mem_cons_self _ _), hnd⟩, ?_⟩
        intro x hx
        rcases List.mem_cons.mp hx with rfl | hxs
        · exact hi
        · exact fun hxseen => (hall x hxs) (List.mem_cons_of_mem _ hxseen)
      · rintro ⟨hcons, hall⟩
        obtain ⟨hnotin, hnd⟩ := List.nodup_cons.mp hcons
        refine ⟨hnd, ?_⟩
        intro x hx hxc
        rcases List.mem_cons.mp hxc with rfl | hxs
        · exact hnotin hx
        · exact (hall x (List.mem_cons_of_mem _ hx)) hxs

theorem duplicate_tx_scan_ok_nodup :
    ∀ (l : List Transaction) (ids : List Nat),
      BlockBodyProcessor.duplicate_tx_scan ids l = .ok () →
      (l.map (fun tx => tx.id)).Nodup ∧ ∀ x ∈ l.map (fun tx => tx.id), x ∉ ids := by
  intro l
  induction l with
  | nil => intro ids _; simp
  | cons tx rest ih =>
    intro ids h
    by_cases hi : tx.id ∈ ids
    · simp [BlockBodyProcessor.duplicate_tx_scan, hi] at h
    · obtain ⟨hnd, hall⟩ :=
        ih (tx.id :: ids) (by simpa [BlockBodyProcessor.duplicate_tx_scan, hi] using h)
      refine ⟨List.nodup_cons.mpr ⟨fun hmem => (hall _ hmem) (List.mem_cons_self _ _), hnd⟩, ?_⟩
      intro x hx
      rcases List.mem_cons.mp hx with rfl | hxs
      · exact hi
      · exact fun hxi => (hall x hxs) (List.mem_cons_of_mem _ hxi)

/-! ### Error shapes of the block-body checks (C9) -/

namespace BlockBodyProcessor

theorem check_has_transactions_error_shape (b : Block) (e : RuleError) :
    check_has_transactions b = .error e → e = .NoTransactions := by
  intro h
  unfold check_has_transactions at h
  split at h
  · injection h with h2; exact h2.symm
  · simp at h

theorem check_hash_merkle_root_error_shape (p : BlockBodyProcessor) (b : Block)
    (sma : Bool) (e : RuleError) :
    p.check_hash_merkle_root b sma = .error e → ∃ x y, e = .BadMerkleRoot x y := by
  intro h
  unfold check_hash_merkle_root at h
  split at h
  · injection h with h2; exact ⟨_, _, h2.symm⟩
  · simp at h

theorem check_only_one_coinbase_error_shape (b : Block) (e : RuleError) :
    check_only_one_coinbase b = .error e →
      e = .FirstTxNotCoinbase ∨ ∃ i, e = .MultipleCoinbases i := by
  intro h
  unfold check_only_one_coinbase at h
  cases htx : b.transactions with
  | nil => rw [htx] at h; simp at h
  | cons t0 rest =>
    rw [htx] at h
    simp only [] at h
    split at h
    · injection h with h2; exact Or.inl h2.symm
    · split at h
      · injection h with h2; exact Or.inr ⟨_, h2.symm⟩
      · simp at h

theorem txs_isolation_scan_error_shape (v : TransactionValidator) :
    ∀ (l : List Transaction) (e : RuleError),
      txs_isolation_scan v l = .error e →
      ∃ a te, e = .TxInIsolationValidationFailed a te := by
  intro l
  induction l with
  | nil => intro e h; simp [txs_isolation_scan] at h
  | cons t rest ih =>
    intro e h
    cases hv : v.validate_tx_in_isolation t with
    | error te =>
      rw [txs_isolation_scan, hv] at h
      injection h with h2
      exact ⟨t.id, te, h2.symm⟩
    | ok u => exact ih e (by rw [txs_isolation_scan, hv] at h; exact h)

theorem txs_isolation_scan_ok_each (v : TransactionValidator) :
    ∀ l : List Transaction, txs_isolation_scan v l = .ok () →
      ∀ tx ∈ l, v.validate_tx_in_isolation tx = .ok () := by
  intro l
  induction l with
  | nil => intro _ tx htx; exact absurd htx (List.not_mem_nil tx)
  | cons t rest ih =>
    intro h tx htx
    cases hv : v.validate_tx_in_isolation t with
    | error te => rw [txs_isolation_scan, hv] at h; simp at h
    | ok u =>
      rcases List.mem_cons.mp htx with rfl | hr
      · cases u; exact hv
      · exact ih (by rw [txs_isolation_scan, hv] at h; exact h) tx hr

theorem block_mass_activated_scan_error_shape (p : BlockBodyProcessor) :
    ∀ (l : List Transaction) (total : Nat) (e : RuleError),
      block_mass_activated_scan p total l = .error e →
      (∃ a x y, e = .MassFieldTooLow a x y) ∨ (∃ lim, e = .ExceedsMassLimit lim) := by
  intro l
  induction l with
  | nil => intro total e h; simp [block_mass_activated_scan] at h
  | cons tx rest ih =>
    intro total e h
    unfold block_mass_activated_scan at h
    by_cases h1 : tx.mass < p.mass_calculator tx
    · simp only [h1, if_true, if_pos] at h
      injection h with h2
      exact Or.inl ⟨_, _, _, h2.symm⟩
    · simp only [h1, if_false, if_neg, not_false_iff] at h
      by_cases h2 : satAdd total tx.mass > p.max_block_mass
      · rw [if_pos h2] at h
        injection h with h3
        exact Or.inr ⟨_, h3.symm⟩
      · exact ih _ e (by rw [if_neg h2] at h; exact h)

theorem block_mass_plain_scan_error_shape (p : BlockBodyProcessor) :
    ∀ (l : List Transaction) (total : Nat) (e : RuleError),
      block_mass_plain_scan p total l = .error e →
      ∃ lim, e = .ExceedsMassLimit lim := by
  intro l
  induction l with
  | nil => intro total e h; simp [block_mass_plain_scan] at h
  | cons tx rest ih =>
    intro total e h
    unfold block_mass_plain_scan at h
    by_cases h2 : satAdd total (p.mass_calculator tx) > p.max_block_mass
    · rw [if_pos h2] at h
      injection h with h3
      exact ⟨_, h3.symm⟩
    · exact ih _ e (by rw [if_neg h2] at h; exact h)

theorem check_block_mass_error_shape (p : BlockBodyProcessor) (b : Block)
    (sma : Bool) (e : RuleError) :
    p.check_block_mass b sma = .error e →
      (∃ a x y, e = .MassFieldTooLow a x y) ∨ (∃ lim, e = .ExceedsMassLimit lim) := by
  intro h
  unfold check_block_mass at h
  cases sma with
  | true => exact block_mass_activated_scan_error_shape p _ _ _ (by simpa using h)
  | false => exact Or.inr (block_mass_plain_scan_error_shape p _ _ _ (by simpa using h))

theorem duplicate_tx_scan_error_shape :
    ∀ (l : List Transaction) (ids : List Nat) (e : RuleError),
      duplicate_tx_scan ids l = .error e → ∃ a, e = .DuplicateTransactions a := by
  intro l
  induction l with
  | nil => intro ids e h; simp [duplicate_tx_scan] at h
  | cons tx rest ih =>
    intro ids e h
    by_cases hi : tx.id ∈ ids
    · rw [duplicate_tx_scan, if_pos hi] at h
      injection h with h2
      exact ⟨_, h2.symm⟩
    · exact ih _ e (by rw [duplicate_tx_scan, if_neg hi] at h; exact h)

theorem chained_scan_error_shape (created : List TransactionOutpoint) :
    ∀ (l : List TransactionInput) (e : RuleError),
      chained_scan created l = .error e → ∃ o, e = .ChainedTransaction o := by
  intro l
  induction l with
  | nil => intro e h; simp [chained_scan] at h
  | cons i rest ih =>
    intro e h
    by_cases hi : i.previous_outpoint ∈ created
    · rw [chained_scan, if_pos hi] at h
      injection h with h2
      exact ⟨_, h2.symm⟩
    · exact ih e (by rw [chained_scan, if_neg hi] at h; exact h)

theorem double_spend_scan_error :
    ∀ (l : List TransactionInput) (seen : List TransactionOutpoint) (o : TransactionOutpoint),
      double_spend_scan seen l = .error (.DoubleSpendInSameBlock o) →
      o ∈ l.map (fun i => i.previous_outpoint) ∧
        (o ∈ seen ∨ 2 ≤ (l.map (fun i => i.previous_outpoint)).count o) := by
  intro l
  induction l with
  | nil => intro seen o h; simp [double_spend_scan] at h
  | cons i rest ih =>
    intro seen o h
    by_cases hi : i.previous_outpoint ∈ seen
    · rw [double_spend_scan, if_pos hi] at h
      injection h with h2
      injection h2 with h3
      subst h3
      exact ⟨List.mem_cons_self _ _, Or.inl hi⟩
    · obtain ⟨hm, hrest⟩ := ih (i.previous_outpoint :: seen) o
        (by rw [double_spend_scan, if_neg hi] at h; exact h)
      refine ⟨List.mem_cons_of_mem _ hm, ?_⟩
      rcases hrest with hseen | hcount
      · rcases List.mem_cons.mp hseen with heq | hseen2
        · right
          subst heq
          have hpos : 0 < (rest.map (fun i => i.previous_outpoint)).count
              i.previous_outpoint := List.count_pos_iff.mpr hm
          rw [List.map_cons, List.count_cons]
          simp only [beq_self_eq_true, if_true]
          omega
        · exact Or.inl hseen2
      · right
        rw [List.map_cons, List.count_cons]
        omega

end BlockBodyProcessor

/-- The previous outpoints of a transaction's inputs, in order. -/
def prevs (tx : Transaction) : List TransactionOutpoint :=
  tx.inputs.map (fun i => i.previous_outpoint)

theorem map_prev_flatMap :
    ∀ txs : List Transaction,
      (txs.flatMap (fun tx => tx.inputs)).map (fun i => i.previous_outpoint)
        = txs.flatMap prevs := by
  intro txs
  induction txs with
  | nil => rfl
  | cons t rest ih => simp [List.flatMap_cons, ih, prevs]

theorem two_distinct_owners (o : TransactionOutpoint) :
    ∀ txs : List Transaction,
      (txs.map (fun tx => tx.id)).Nodup →
      (∀ tx ∈ txs, (prevs tx).count o ≤ 1) →
      2 ≤ ((txs.flatMap prevs).count o) →
      ∃ t1, t1 ∈ txs ∧ ∃ t2, t2 ∈ txs ∧ t1.id ≠ t2.id ∧
        o ∈ prevs t1 ∧ o ∈ prevs t2 := by
  intro txs
  induction txs with
  | nil => intro _ _ h2; simp at h2
  | cons t rest ih =>
    intro hnd hle hcnt
    rw [List.flatMap_cons, List.count_append] at hcnt
    have hnd2 : (∀ x ∈ rest, ¬ x.id = t.id) ∧ (rest.map (fun tx => tx.id)).Nodup := by
      simpa using hnd
    by_cases hto : o ∈ prevs t
    · have h1 : (prevs t).count o ≤ 1 := hle t (List.mem_cons_self _ _)
      have hpos : 0 < (prevs t).count o := List.count_pos_iff.mpr hto
      have hmem : o ∈ rest.flatMap prevs := List.count_pos_iff.mp (by omega)
      obtain ⟨t2, ht2, ho2⟩ := List.mem_flatMap.mp hmem
      refine ⟨t, List.mem_cons_self _ _, t2, List.mem_cons_of_mem _ ht2, ?_, hto, ho2⟩
      intro heq
      exact hnd2.1 t2 ht2 heq.symm
    · have hz : (prevs t).count o = 0 := by
        by_contra hnz
        exact hto (List.count_pos_iff.mp (Nat.pos_of_ne_zero hnz))
      obtain ⟨t1, ht1, t2, ht2, hne, hp1, hp2⟩ :=
        ih hnd2.2 (fun tx htx => hle tx (List.mem_cons_of_mem _ htx)) (by omega)
      exact ⟨t1, List.mem_cons_of_mem _ ht1, t2, List.mem_cons_of_mem _ ht2, hne, hp1, hp2⟩

/-- C9: whenever `validate_body_in_isolation` returns
`DoubleSpendInSameBlock o`, every transaction of the block has
duplicate-free previous outpoints (a within-transaction repeat would have
been reported earlier by the per-transaction isolation check as
`TxDuplicateInputs`), and the outpoint `o` is spent by two transactions of
the block with distinct ids. -/
theorem double_spend_cross_transaction (p : BlockBodyProcessor) (b : Block)
    (o : TransactionOutpoint)
    (h : p.validate_body_in_isolation b = .error (.DoubleSpendInSameBlock o)) :
    (∀ tx ∈ b.transactions, (prevs tx).Nodup) ∧
    (∃ t1, t1 ∈ b.transactions ∧ ∃ t2, t2 ∈ b.transactions ∧ t1.id ≠ t2.id ∧
      o ∈ prevs t1 ∧ o ∈ prevs t2) := by
  unfold BlockBodyProcessor.validate_body_in_isolation at h
  cases h1 : BlockBodyProcessor.check_has_transactions b with
  | error e1 =>
    rw [h1] at h
    simp only [Except.error.injEq] at h
    subst h
    have h2 := BlockBodyProcessor.check_has_transactions_error_shape b _ h1
    simp at h2
  | ok u1 =>
  rw [h1] at h
  cases h2 : p.check_hash_merkle_root b (BlockBodyProcessor.storage_mass_activated p b) with
  | error e2 =>
    rw [h2] at h
    simp only [Except.error.injEq] at h
    subst h
    obtain ⟨x, y, hxy⟩ := BlockBodyProcessor.check_hash_merkle_root_error_shape p b _ _ h2
    simp at hxy
  | ok u2 =>
  rw [h2] at h
  cases h3 : BlockBodyProcessor.check_only_one_coinbase b with
  | error e3 =>
    rw [h3] at h
    simp only [Except.error.injEq] at h
    subst h
    rcases BlockBodyProcessor.check_only_one_coinbase_error_shape b _ h3 with h4 | ⟨i, h4⟩ <;>
      simp at h4
  | ok u3 =>
  rw [h3] at h
  cases h4 : p.check_transactions_in_isolation b with
  | error e4 =>
    rw [h4] at h
    simp only [Except.error.injEq] at h
    subst h
    obtain ⟨a, te, hat⟩ := BlockBodyProcessor.txs_isolation_scan_error_shape
      p.transaction_validator b.transactions _ h4
    simp at hat
  | ok u4 =>
  rw [h4] at h
  cases h5 : p.check_block_mass b (BlockBodyProcessor.storage_mass_activated p b) with
  | error e5 =>
    rw [h5] at h
    simp only [Except.error.injEq] at h
    subst h
    rcases BlockBodyProcessor.check_block_mass_error_shape p b _ _ h5 with ⟨a, x, y, h6⟩ | ⟨lim, h6⟩ <;>
      simp at h6
  | ok mass =>
  rw [h5] at h
  cases h6 : BlockBodyProcessor.check_duplicate_transactions b with
  | error e6 =>
    rw [h6] at h
    simp only [Except.error.injEq] at h
    subst h
    obtain ⟨a, ha⟩ := BlockBodyProcessor.duplicate_tx_scan_error_shape b.transactions [] _ h6
    simp at ha
  | ok u6 =>
  rw [h6] at h
  cases h7 : BlockBodyProcessor.check_block_double_spends b with
  | ok u7 =>
    rw [h7] at h
    cases h8 : BlockBodyProcessor.check_no_chained_transactions b with
    | error e8 =>
      rw [h8] at h
      simp only [Except.error.injEq] at h
      subst h
      obtain ⟨o2, ho2⟩ := BlockBodyProcessor.chained_scan_error_shape
        (BlockBodyProcessor.block_created_outpoints b) _ _ h8
      simp at ho2
    | ok u8 =>
      rw [h8] at h
      simp at h
  | error e7 =>
    rw [h7] at h
    simp only [Except.error.injEq] at h
    subst h
    have hscan : BlockBodyProcessor.double_spend_scan []
        (b.transactions.flatMap (fun tx => tx.inputs))
        = .error (.DoubleSpendInSameBlock o) := h7
    obtain ⟨hm, hrest⟩ := BlockBodyProcessor.double_spend_scan_error _ [] o hscan
    have hcnt : 2 ≤ ((b.transactions.flatMap prevs).count o) := by
      rcases hrest with hseen | hcount
      · exact absurd hseen (List.not_mem_nil o)
      · rw [map_prev_flatMap] at hcount
        exact hcount
    have heach := BlockBodyProcessor.txs_isolation_scan_ok_each
      p.transaction_validator b.transactions h4
    have hnodup : ∀ tx ∈ b.transactions, (prevs tx).Nodup := by
      intro tx htx
      have hok := heach tx htx
      have hch : chainRun (tx_isolation_checks p.transaction_validator tx) = .ok () := by
        rw [← validate_tx_eq_chainRun]
        exact hok
      have hdup : check_duplicate_transaction_inputs tx = .ok () :=
        chainRun_ok_mem _ hch _ (by simp [tx_isolation_checks])
      exact ((dup_input_scan_ok_iff tx.inputs []).mp hdup).1
    have hids : (b.transactions.map (fun tx => tx.id)).Nodup :=
      (duplicate_tx_scan_ok_nodup b.transactions [] h6).1
    have hle : ∀ tx ∈ b.transactions, (prevs tx).count o ≤ 1 :=
      fun tx htx => (List.nodup_iff_count_le_one.mp (hnodup tx htx)) o
    exact ⟨hnodup, two_distinct_owners o b.transactions hids hle hcnt⟩

/-- An input spending outpoint `(99, 0)`, an output of no transaction of
the fixture blocks. -/
def inpSpendingX : TransactionInput :=
  { previous_outpoint := { transaction_id := 99, index := 0 },
    signature_script := [], sequence := 0, sig_op_count := 0 }

/-- A native transaction spending `(99, 0)`. -/
def dsTxA : Transaction := { nativeTx with inputs := [inpSpendingX] }

/-- A second native transaction, with a different id, also spending
`(99, 0)`. -/
def dsTxB : Transaction := { nativeTx with inputs := [inpSpendingX], id := 21 }

/-- A block where two distinct transactions spend the same outpoint. -/
def B9 : Block :=
  { header := { hash_merkle_root := 7, daa_score := 0 },
    transactions := [cbTx, dsTxA, dsTxB] }

/-- Witness for C9, at block `B9`. -/
theorem double_spend_cross_witness :
    (∀ tx ∈ B9.transactions, (prevs tx).Nodup) ∧
    (∃ t1, t1 ∈ B9.transactions ∧ ∃ t2, t2 ∈ B9.transactions ∧ t1.id ≠ t2.id ∧
      TransactionOutpoint.mk 99 0 ∈ prevs t1 ∧
      TransactionOutpoint.mk 99 0 ∈ prevs t2) :=
  double_spend_cross_transaction P0 B9 (TransactionOutpoint.mk 99 0) rfl

/-! ### Error shapes of the per-transaction checks (C10) -/

theorem chainRun_error_mem {ε : Type} (e : ε) :
    ∀ l : List (Except ε Unit), chainRun l = .error e → Except.error e ∈ l := by
  intro l
  induction l with
  | nil => intro h; simp [chainRun] at h
  | cons c0 rest ih =>
    intro h
    cases c0 with
    | error e0 =>
      rw [chainRun] at h
      injection h with h2
      subst h2
      exact List.mem_cons_self _ _
    | ok u => exact List.mem_cons_of_mem _ (ih (by simpa [chainRun] using h))

theorem check_transaction_inputs_count_error_shape (v : TransactionValidator)
    (tx : Transaction) (e : TxRuleError) :
    v.check_transaction_inputs_count tx = .error e →
      e = .NoTxInputs ∨ ∃ n lim, e = .TooManyInputs n lim := by
  intro h
  unfold TransactionValidator.check_transaction_inputs_count at h
  split at h
  · injection h with h2; exact Or.inl h2.symm
  · split at h
    · injection h with h2; exact Or.inr ⟨_, _, h2.symm⟩
    · simp at h

theorem check_transaction_signature_scripts_error_shape (v : TransactionValidator)
    (tx : Transaction) (e : TxRuleError) :
    v.check_transaction_signature_scripts tx = .error e →
      ∃ i lim, e = .TooBigSignatureScript i lim := by
  intro h
  unfold TransactionValidator.check_transaction_signature_scripts at h
  split at h
  · injection h with h2; exact ⟨_, _, h2.symm⟩
  · simp at h

theorem dup_input_scan_error_shape :
    ∀ (l : List TransactionInput) (seen : List TransactionOutpoint) (e : TxRuleError),
      dup_input_scan seen l = .error e → e = .TxDuplicateInputs := by
  intro l
  induction l with
  | nil => intro seen e h; simp [dup_input_scan] at h
  | cons i rest ih =>
    intro seen e h
    by_cases hi : i.previous_outpoint ∈ seen
    · rw [dup_input_scan, if_pos hi] at h
      injection h with h2
      exact h2.symm
    · exact ih _ e (by rw [dup_input_scan, if_neg hi] at h; exact h)

theorem check_gas_error_shape (tx : Transaction) (e : TxRuleError) :
    check_gas tx = .error e → e = .TxHasGas := by
  intro h
  unfold check_gas at h
  split at h
  · injection h with h2; exact h2.symm
  · simp at h

theorem check_transaction_payload_error_shape (tx : Transaction) (e : TxRuleError) :
    check_transaction_payload tx = .error e → e = .NonCoinbaseTxHasPayload := by
  intro h
  unfold check_transaction_payload at h
  split at h
  · injection h with h2; exact h2.symm
  · simp at h

theorem check_transaction_version_error_shape (v : TransactionValidator)
    (tx : Transaction) (e : TxRuleError) :
    check_transaction_version v tx = .error e → ∃ x, e = .UnknownTxVersion x := by
  intro h
  unfold check_transaction_version at h
  split at h
  · injection h with h2; exact ⟨_, h2.symm⟩
  · simp at h

/-- C10: a non-coinbase transaction with no outputs gets no output-related
error from `validate_tx_in_isolation`: the outputs-count,
script-public-key-size, coinbase and value-range checks pass vacuously,
acceptance reduces exactly to the inputs, duplicate, gas, payload and
version checks, and any error returned is never one of the output-related
variants. -/
theorem empty_outputs_no_output_error (v : TransactionValidator) (tx : Transaction)
    (hout : tx.outputs = []) (hcb : tx.is_coinbase = false) :
    v.check_transaction_outputs_in_isolation tx = .ok () ∧
    check_transaction_output_value_ranges v tx = .ok () ∧
    v.check_coinbase_in_isolation tx = .ok () ∧
    (v.validate_tx_in_isolation tx = .ok () ↔
      (v.check_transaction_inputs_count tx = .ok () ∧
       v.check_transaction_signature_scripts tx = .ok () ∧
       check_duplicate_transaction_inputs tx = .ok () ∧
       check_gas tx = .ok () ∧
       check_transaction_payload tx = .ok () ∧
       check_transaction_version v tx = .ok ())) ∧
    (∀ e, v.validate_tx_in_isolation tx = .error e →
       (∀ n lim, e ≠ .TooManyOutputs n lim) ∧
       (∀ i lim, e ≠ .TooBigScriptPublicKey i lim) ∧
       (∀ i, e ≠ .TxOutZero i) ∧ (∀ i, e ≠ .TxOutTooHigh i) ∧
       e ≠ .OutputsValueOverflow ∧ e ≠ .TotalTxOutTooHigh) := by
  have ho1 : v.check_transaction_outputs_count tx = .ok () := by
    simp [TransactionValidator.check_transaction_outputs_count, hout]
  have ho2 : v.check_transaction_script_public_keys tx = .ok () := by
    simp [TransactionValidator.check_transaction_script_public_keys, hout, position]
  have hoiso : v.check_transaction_outputs_in_isolation tx = .ok () := by
    simp [TransactionValidator.check_transaction_outputs_in_isolation, ho1, ho2]
  have ho3 : check_transaction_output_value_ranges v tx = .ok () := by
    simp [check_transaction_output_value_ranges, hout, value_ranges_scan]
  have ho4 : v.check_coinbase_in_isolation tx = .ok () := by
    simp [TransactionValidator.check_coinbase_in_isolation, hcb]
  refine ⟨hoiso, ho3, ho4, ?_, ?_⟩
  · rw [validate_tx_eq_chainRun]
    constructor
    · intro h
      have hall := chainRun_ok_mem _ h
      exact ⟨hall _ (by simp [tx_isolation_checks]),
        hall _ (by simp [tx_isolation_checks]),
        hall _ (by simp [tx_isolation_checks]),
        hall _ (by simp [tx_isolation_checks]),
        hall _ (by simp [tx_isolation_checks]),
        hall _ (by simp [tx_isolation_checks])⟩
    · rintro ⟨a1, a2, a3, a4, a5, a6⟩
      apply chainRun_all_ok
      intro c hc
      simp only [tx_isolation_checks, List.mem_cons, List.not_mem_nil, or_false] at hc
      rcases hc with rfl | rfl | rfl | rfl | rfl | rfl | rfl | rfl | rfl | rfl
      · exact a1
      · exact a2
      · exact ho1
      · exact ho2
      · exact ho4
      · exact ho3
      · exact a3
      · exact a4
      · exact a5
      · exact a6
  · intro e he
    rw [validate_tx_eq_chainRun] at he
    have hmem := chainRun_error_mem e _ he
    simp only [tx_isolation_checks, List.mem_cons, List.not_mem_nil, or_false] at hmem
    rw [ho1, ho2, ho3, ho4] at hmem
    rcases hmem with h | h | h | h | h | h | h | h | h | h
    · rcases check_transaction_inputs_count_error_shape v tx e h.symm with rfl | ⟨n0, lim0, rfl⟩ <;>
        simp
    · obtain ⟨i0, lim0, rfl⟩ := check_transaction_signature_scripts_error_shape v tx e h.symm
      simp
    · simp at h
    · simp at h
    · simp at h
    · simp at h
    · have := dup_input_scan_error_shape tx.inputs [] e h.symm
      subst this
      simp
    · have := check_gas_error_shape tx e h.symm
      subst this
      simp
    · have := check_transaction_payload_error_shape tx e h.symm
      subst this
      simp
    · obtain ⟨x, rfl⟩ := check_transaction_version_error_shape v tx e h.symm
      simp

/-- Witness for C10, at `nativeTx` (non-coinbase, no outputs). -/
theorem empty_outputs_witness :
    cfgV.check_transaction_outputs_in_isolation nativeTx = .ok () ∧
    check_transaction_output_value_ranges cfgV nativeTx = .ok () ∧
    cfgV.check_coinbase_in_isolation nativeTx = .ok () ∧
    (cfgV.validate_tx_in_isolation nativeTx = .ok () ↔
      (cfgV.check_transaction_inputs_count nativeTx = .ok () ∧
       cfgV.check_transaction_signature_scripts nativeTx = .ok () ∧
       check_duplicate_transaction_inputs nativeTx = .ok () ∧
       check_gas nativeTx = .ok () ∧
       check_transaction_payload nativeTx = .ok () ∧
       check_transaction_version cfgV nativeTx = .ok ())) ∧
    (∀ e, cfgV.validate_tx_in_isolation nativeTx = .error e →
       (∀ n lim, e ≠ .TooManyOutputs n lim) ∧
       (∀ i lim, e ≠ .TooBigScriptPublicKey i lim) ∧
       (∀ i, e ≠ .TxOutZero i) ∧ (∀ i, e ≠ .TxOutTooHigh i) ∧
       e ≠ .OutputsValueOverflow ∧ e ≠ .TotalTxOutTooHigh) :=
  empty_outputs_no_output_error cfgV nativeTx rfl rfl

/-! ### Pass characterizations of the per-transaction checks (C8) -/

theorem position_eq_none_iff {α : Type} (p : α → Bool) :
    ∀ l : List α, position p l = none ↔ ∀ a ∈ l, p a = false := by
  intro l
  induction l with
  | nil => simp [position]
  | cons a rest ih =>
    by_cases hp : p a
    · simp [position, hp]
    · simp [position, hp, ih]

theorem position_eq_some_exists {α : Type} (p : α → Bool) :
    ∀ (l : List α) (i : Nat), position p l = some i → ∃ a ∈ l, p a = true := by
  intro l
  induction l with
  | nil => intro i h; simp [position] at h
  | cons a rest ih =>
    intro i h
    by_cases hp : p a
    · exact ⟨a, List.mem_cons_self _ _, hp⟩
    · rw [position, if_neg hp] at h
      obtain ⟨j, hj, -⟩ := Option.map_eq_some'.mp h
      obtain ⟨a2, ha2, hpa2⟩ := ih j hj
      exact ⟨a2, List.mem_cons_of_mem _ ha2, hpa2⟩

theorem inputs_count_ok_iff (v : TransactionValidator) (tx : Transaction) :
    v.check_transaction_inputs_count tx = .ok () ↔
      (¬ (tx.is_coinbase = false ∧ tx.inputs = [])) ∧
      ¬ (tx.inputs.length > v.max_tx_inputs) := by
  by_cases h1 : tx.is_coinbase = false ∧ tx.inputs = []
  · simp [TransactionValidator.check_transaction_inputs_count, h1]
  · by_cases h2 : tx.inputs.length > v.max_tx_inputs <;>
      simp [TransactionValidator.check_transaction_inputs_count, h1, h2]

theorem sig_scripts_ok_iff (v : TransactionValidator) (tx : Transaction) :
    v.check_transaction_signature_scripts tx = .ok () ↔
      ∀ i ∈ tx.inputs, ¬ (i.signature_script.length > v.max_signature_script_len) := by
  cases hp : position
      (fun input => decide (input.signature_script.length > v.max_signature_script_len))
      tx.inputs with
  | some i =>
    simp only [TransactionValidator.check_transaction_signature_scripts, hp]
    obtain ⟨a, ha, hpa⟩ := position_eq_some_exists _ _ _ hp
    simp only [decide_eq_true_eq] at hpa
    constructor
    · intro h; exact absurd h (by simp)
    · intro hall; exact absurd hpa (hall a ha)
  | none =>
    simp only [TransactionValidator.check_transaction_signature_scripts, hp]
    constructor
    · intro _ a ha
      have := (position_eq_none_iff _ _).mp hp a ha
      simpa using this
    · intro _
      first
      | rfl
      | trivial

theorem outputs_count_ok_iff (v : TransactionValidator) (tx : Transaction) :
    v.check_transaction_outputs_count tx = .ok () ↔
      ¬ (tx.outputs.length > v.max_tx_outputs) := by
  by_cases h : tx.outputs.length > v.max_tx_outputs <;>
    simp [TransactionValidator.check_transaction_outputs_count, h]

theorem spk_ok_iff (v : TransactionValidator) (tx : Transaction) :
    v.check_transaction_script_public_keys tx = .ok () ↔
      ∀ o ∈ tx.outputs,
        ¬ (o.script_public_key.script.length > v.max_script_public_key_len) := by
  cases hp : position
      (fun output => decide (output.script_public_key.script.length > v.max_script_public_key_len))
      tx.outputs with
  | some i =>
    simp only [TransactionValidator.check_transaction_script_public_keys, hp]
    obtain ⟨a, ha, hpa⟩ := position_eq_some_exists _ _ _ hp
    simp only [decide_eq_true_eq] at hpa
    constructor
    · intro h; exact absurd h (by simp)
    · intro hall; exact absurd hpa (hall a ha)
  | none =>
    simp only [TransactionValidator.check_transaction_script_public_keys, hp]
    constructor
    · intro _ a ha
      have := (position_eq_none_iff _ _).mp hp a ha
      simpa using this
    · intro _
      first
      | rfl
      | trivial

theorem coinbase_ok_iff (v : TransactionValidator) (tx : Transaction) :
    v.check_coinbase_in_isolation tx = .ok () ↔
      (tx.is_coinbase = false ∨
        (tx.inputs = [] ∧ ¬ (tx.outputs.length > v.ghostdag_k + 2) ∧
         ∀ o ∈ tx.outputs,
           ¬ (o.script_public_key.script.length
                > v.coinbase_payload_script_public_key_max_len))) := by
  by_cases hcb : tx.is_coinbase = false
  · simp [TransactionValidator.check_coinbase_in_isolation, hcb]
  · by_cases hin : tx.inputs ≠ []
    · simp [TransactionValidator.check_coinbase_in_isolation, hcb, hin]
    · by_cases hn : tx.outputs.length > v.ghostdag_k + 2
      · simp [TransactionValidator.check_coinbase_in_isolation, hcb, hin, hn]
      · simp only [TransactionValidator.check_coinbase_in_isolation, if_neg hcb,
          if_neg hin, if_neg hn]
        cases hp : position
            (fun output => decide (output.script_public_key.script.length
              > v.coinbase_payload_script_public_key_max_len)) tx.outputs with
        | some i =>
          obtain ⟨a, ha, hpa⟩ := position_eq_some_exists _ _ _ hp
          simp only [decide_eq_true_eq] at hpa
          simp only [hp]
          constructor
          · intro h; exact absurd h (by simp)
          · rintro (hfalse | ⟨-, -, hall⟩)
            · exact absurd hfalse hcb
            · exact absurd hpa (hall a ha)
        | none =>
          simp only [hp]
          constructor
          · intro _
            refine Or.inr ⟨not_not.mp hin, hn, ?_⟩
            intro a ha
            have := (position_eq_none_iff _ _).mp hp a ha
            simpa using this
          · intro _
            first
            | rfl
            | trivial

theorem check_duplicate_ok_iff (tx : Transaction) :
    check_duplicate_transaction_inputs tx = .ok () ↔
      (tx.inputs.map (fun i => i.previous_outpoint)).Nodup := by
  simp [check_duplicate_transaction_inputs, dup_input_scan_ok_iff]

theorem gas_ok_iff (tx : Transaction) :
    check_gas tx = .ok () ↔ ¬ (tx.gas > 0) := by
  by_cases h : tx.gas > 0 <;> simp [check_gas, h]

theorem payload_ok_iff (tx : Transaction) :
    check_transaction_payload tx = .ok () ↔
      ¬ (tx.is_coinbase = false ∧ tx.payload ≠ []) := by
  by_cases h : tx.is_coinbase = false ∧ tx.payload ≠ [] <;>
    simp [check_transaction_payload, h]

theorem version_ok_iff (v : TransactionValidator) (tx : Transaction) :
    check_transaction_version v tx = .ok () ↔ ¬ (tx.version ≠ v.tx_version) := by
  by_cases h : tx.version ≠ v.tx_version <;> simp [check_transaction_version, h]

theorem validate_tx_ok_iff (v : TransactionValidator) (tx : Transaction) :
    v.validate_tx_in_isolation tx = .ok () ↔
      ∀ c ∈ tx_isolation_checks v tx, c = .ok () := by
  rw [validate_tx_eq_chainRun]
  exact ⟨chainRun_ok_mem _, chainRun_all_ok _⟩

/-- C8: for a transaction whose inputs have pairwise-distinct previous
outpoints, `validate_tx_in_isolation` accepts any permutation of its
inputs exactly when it accepts the transaction itself. -/
theorem validate_tx_in_isolation_perm_invariant (v : TransactionValidator)
    (t : Transaction) (inputs2 : List TransactionInput)
    (hperm : t.inputs.Perm inputs2)
    (hnd : (t.inputs.map (fun i => i.previous_outpoint)).Nodup) :
    v.validate_tx_in_isolation { t with inputs := inputs2 } = .ok () ↔
      v.validate_tx_in_isolation t = .ok () := by
  obtain ⟨ver, ins, outs, lt, sn, g, pl, ms, idv⟩ := t
  dsimp only at hperm hnd ⊢
  have hlen : inputs2.length = ins.length := hperm.length_eq.symm
  have hmem : ∀ a : TransactionInput, a ∈ inputs2 ↔ a ∈ ins :=
    fun a => (hperm.mem_iff).symm
  have hnil : inputs2 = [] ↔ ins = [] := by
    constructor <;> intro h
    · exact List.length_eq_zero.mp (by rw [← hlen, h]; rfl)
    · exact List.length_eq_zero.mp (by rw [hlen, h]; rfl)
  have hndmap : (inputs2.map (fun i => i.previous_outpoint)).Nodup ↔
      (ins.map (fun i => i.previous_outpoint)).Nodup :=
    (hperm.map (fun i => i.previous_outpoint)).nodup_iff.symm
  rw [validate_tx_ok_iff, validate_tx_ok_iff]
  simp only [tx_isolation_checks, List.forall_mem_cons, List.forall_mem_nil, and_true]
  rw [inputs_count_ok_iff, inputs_count_ok_iff, sig_scripts_ok_iff, sig_scripts_ok_iff,
    outputs_count_ok_iff, outputs_count_ok_iff, spk_ok_iff, spk_ok_iff,
    coinbase_ok_iff, coinbase_ok_iff, check_duplicate_ok_iff, check_duplicate_ok_iff,
    gas_ok_iff, gas_ok_iff, payload_ok_iff, payload_ok_iff,
    version_ok_iff, version_ok_iff]
  simp only [Transaction.is_coinbase]
  dsimp only
  simp only [hlen, hmem, hnil, hndmap, check_transaction_output_value_ranges]

/-- The exported `Opcode` enum of `consensus/client/src/script.rs` (the
`TS_SCRIPT_OPCODES` table): symbolic opcode names, in source order. -/
inductive Opcode where
  | OpData1
  | OpData2
  | OpData3
  | OpData4
  | OpData5
  | OpData6
  | OpData7
  | OpData8
  | OpData9
  | OpData10
  | OpData11
  | OpData12
  | OpData13
  | OpData14
  | OpData15
  | OpData16
  | OpData17
  | OpData18
  | OpData19
  | OpData20
  | OpData21
  | OpData22
  | OpData23
  | OpData24
  | OpData25
  | OpData26
  | OpData27
  | OpData28
  | OpData29
  | OpData30
  | OpData31
  | OpData32
  | OpData33
  | OpData34
  | OpData35
  | OpData36
  | OpData37
  | OpData38
  | OpData39
  | OpData40
  | OpData41
  | OpData42
  | OpData43
  | OpData44
  | OpData45
  | OpData46
  | OpData47
  | OpData48
  | OpData49
  | OpData50
  | OpData51
  | OpData52
  | OpData53
  | OpData54
  | OpData55
  | OpData56
  | OpData57
  | OpData58
  | OpData59
  | OpData60
  | OpData61
  | OpData62
  | OpData63
  | OpData64
  | OpData65
  | OpData66
  | OpData67
  | OpData68
  | OpData69
  | OpData70
  | OpData71
  | OpData72
  | OpData73
  | OpData74
  | OpData75
  | OpPushData1
  | OpPushData2
  | OpPushData4
  | Op1Negate
  | OpReserved
  | Op1
  | Op2
  | Op3
  | Op4
  | Op5
  | Op6
  | Op7
  | Op8
  | Op9
  | Op10
  | Op11
  | Op12
  | Op13
  | Op14
  | Op15
  | Op16
  | OpNop
  | OpVer
  | OpIf
  | OpNotIf
  | OpVerIf
  | OpVerNotIf
  | OpElse
  | OpEndIf
  | OpVerify
  | OpReturn
  | OpToAltStack
  | OpFromAltStack
  | Op2Drop
  | Op2Dup
  | Op3Dup
  | Op2Over
  | Op2Rot
  | Op2Swap
  | OpIfDup
  | OpDepth
  | OpDrop
  | OpDup
  | OpNip
  | OpOver
  | OpPick
  | OpRoll
  | OpRot
  | OpSwap
  | OpTuck
  | OpCat
  | OpSubStr
  | OpLeft
  | OpRight
  | OpSize
  | OpInvert
  | OpAnd
  | OpOr
  | OpXor
  | OpEqual
  | OpEqualVerify
  | OpReserved1
  | OpReserved2
  | Op1Add
  | Op1Sub
  | Op2Mul
  | Op2Div
  | OpNegate
  | OpAbs
  | OpNot
  | Op0NotEqual
  | OpAdd
  | OpSub
  | OpMul
  | OpDiv
  | OpMod
  | OpLShift
  | OpRShift
  | OpBoolAnd
  | OpBoolOr
  | OpNumEqual
  | OpNumEqualVerify
  | OpNumNotEqual
  | OpLessThan
  | OpGreaterThan
  | OpLessThanOrEqual
  | OpGreaterThanOrEqual
  | OpMin
  | OpMax
  | OpWithin
  | OpUnknown166
  | OpUnknown167
  | OpSha256
  | OpCheckMultiSigECDSA
  | OpBlake2b
  | OpCheckSigECDSA
  | OpCheckSig
  | OpCheckSigVerify
  | OpCheckMultiSig
  | OpCheckMultiSigVerify
  | OpCheckLockTimeVerify
  | OpCheckSequenceVerify
  | OpUnknown178
  | OpUnknown179
  | OpUnknown180
  | OpUnknown181
  | OpUnknown182
  | OpUnknown183
  | OpUnknown184
  | OpUnknown185
  | OpUnknown186
  | OpUnknown187
  | OpUnknown188
  | OpUnknown189
  | OpUnknown190
  | OpUnknown191
  | OpUnknown192
  | OpUnknown193
  | OpUnknown194
  | OpUnknown195
  | OpUnknown196
  | OpUnknown197
  | OpUnknown198
  | OpUnknown199
  | OpUnknown200
  | OpUnknown201
  | OpUnknown202
  | OpUnknown203
  | OpUnknown204
  | OpUnknown205
  | OpUnknown206
  | OpUnknown207
  | OpUnknown208
  | OpUnknown209
  | OpUnknown210
  | OpUnknown211
  | OpUnknown212
  | OpUnknown213
  | OpUnknown214
  | OpUnknown215
  | OpUnknown216
  | OpUnknown217
  | OpUnknown218
  | OpUnknown219
  | OpUnknown220
  | OpUnknown221
  | OpUnknown222
  | OpUnknown223
  | OpUnknown224
  | OpUnknown225
  | OpUnknown226
  | OpUnknown227
  | OpUnknown228
  | OpUnknown229
  | OpUnknown230
  | OpUnknown231
  | OpUnknown232
  | OpUnknown233
  | OpUnknown234
  | OpUnknown235
  | OpUnknown236
  | OpUnknown237
  | OpUnknown238
  | OpUnknown239
  | OpUnknown240
  | OpUnknown241
  | OpUnknown242
  | OpUnknown243
  | OpUnknown244
  | OpUnknown245
  | OpUnknown246
  | OpUnknown247
  | OpUnknown248
  | OpUnknown249
  | OpSmallInteger
  | OpPubKeys
  | OpUnknown252
  | OpPubKeyHash
  | OpPubKey
  | OpInvalidOpCode
  deriving DecidableEq

/-- The numeric value the exported table assigns to each opcode name,
transcribed bit-exactly from the source. -/
def Opcode.value : Opcode → Nat
  | .OpData1 => 0xa01
  | .OpData2 => 0xa02
  | .OpData3 => 0xa03
  | .OpData4 => 0xa04
  | .OpData5 => 0xa05
  | .OpData6 => 0xa06
  | .OpData7 => 0xa07
  | .OpData8 => 0xa08
  | .OpData9 => 0xa09
  | .OpData10 => 0xa0a
  | .OpData11 => 0xa0b
  | .OpData12 => 0xa0c
  | .OpData13 => 0xa0d
  | .OpData14 => 0xa0e
  | .OpData15 => 0xa0f
  | .OpData16 => 0xa10
  | .OpData17 => 0xa11
  | .OpData18 => 0xa12
  | .OpData19 => 0xa13
  | .OpData20 => 0xa14
  | .OpData21 => 0xa15
  | .OpData22 => 0xa16
  | .OpData23 => 0xa17
  | .OpData24 => 0xa18
  | .OpData25 => 0xa19
  | .OpData26 => 0xa1a
  | .OpData27 => 0xa1b
  | .OpData28 => 0xa1c
  | .OpData29 => 0xa1d
  | .OpData30 => 0xa1e
  | .OpData31 => 0xa1f
  | .OpData32 => 0xa20
  | .OpData33 => 0xa21
  | .OpData34 => 0xa22
  | .OpData35 => 0xa23
  | .OpData36 => 0xa24
  | .OpData37 => 0xa25
  | .OpData38 => 0xa26
  | .OpData39 => 0xa27
  | .OpData40 => 0xa28
  | .OpData41 => 0xa29
  | .OpData42 => 0xa2a
  | .OpData43 => 0xa2b
  | .OpData44 => 0xa2c
  | .OpData45 => 0xa2d
  | .OpData46 => 0xa2e
  | .OpData47 => 0xa2f
  | .OpData48 => 0xa30
  | .OpData49 => 0xa31
  | .OpData50 => 0xa32
  | .OpData51 => 0xa33
  | .OpData52 => 0xa34
  | .OpData53 => 0xa35
  | .OpData54 => 0xa36
  | .OpData55 => 0xa37
  | .OpData56 => 0xa38
  | .OpData57 => 0xa39
  | .OpData58 => 0xa3a
  | .OpData59 => 0xa3b
  | .OpData60 => 0xa3c
  | .OpData61 => 0xa3d
  | .OpData62 => 0xa3e
  | .OpData63 => 0xa3f
  | .OpData64 => 0xa40
  | .OpData65 => 0xa41
  | .OpData66 => 0xa42
  | .OpData67 => 0xa43
  | .OpData68 => 0xa44
  | .OpData69 => 0xa45
  | .OpData70 => 0xa46
  | .OpData71 => 0xa47
  | .OpData72 => 0xa48
  | .OpData73 => 0xa49
  | .OpData74 => 0xa4a
  | .OpData75 => 0xa4b
  | .OpPushData1 => 0xa4c
  | .OpPushData2 => 0xa4d
  | .OpPushData4 => 0xa4e
  | .Op1Negate => 0xa4f
  | .OpReserved => 0xa50
  | .Op1 => 0xa51
  | .Op2 => 0xa52
  | .Op3 => 0xa53
  | .Op4 => 0xa54
  | .Op5 => 0xa55
  | .Op6 => 0xa56
  | .Op7 => 0xa57
  | .Op8 => 0xa58
  | .Op9 => 0xa59
  | .Op10 => 0xa5a
  | .Op11 => 0xa5b
  | .Op12 => 0xa5c
  | .Op13 => 0xa5d
  | .Op14 => 0xa5e
  | .Op15 => 0xa5f
  | .Op16 => 0xa60
  | .OpNop => 0xa61
  | .OpVer => 0xa62
  | .OpIf => 0xa63
  | .OpNotIf => 0xa64
  | .OpVerIf => 0xa65
  | .OpVerNotIf => 0xa66
  | .OpElse => 0xa67
  | .OpEndIf => 0xa68
  | .OpVerify => 0xa69
  | .OpReturn => 0xa6a
  | .OpToAltStack => 0xa6b
  | .OpFromAltStack => 0xa6c
  | .Op2Drop => 0xa6d
  | .Op2Dup => 0xa6e
  | .Op3Dup => 0xa6f
  | .Op2Over => 0xa70
  | .Op2Rot => 0xa71
  | .Op2Swap => 0xa72
  | .OpIfDup => 0xa73
  | .OpDepth => 0xa74
  | .OpDrop => 0xa75
  | .OpDup => 0xa76
  | .OpNip => 0xa77
  | .OpOver => 0xa78
  | .OpPick => 0xa79
  | .OpRoll => 0xa7a
  | .OpRot => 0xa7b
  | .OpSwap => 0xa7c
  | .OpTuck => 0xa7d
  | .OpCat => 0xa7e
  | .OpSubStr => 0xa7f
  | .OpLeft => 0xa80
  | .OpRight => 0xa81
  | .OpSize => 0xa82
  | .OpInvert => 0xa83
  | .OpAnd => 0xa84
  | .OpOr => 0xa85
  | .OpXor => 0xa86
  | .OpEqual => 0xa87
  | .OpEqualVerify => 0xa88
  | .OpReserved1 => 0xa89
  | .OpReserved2 => 0xa8a
  | .Op1Add => 0xa8b
  | .Op1Sub => 0xa8c
  | .Op2Mul => 0xa8d
  | .Op2Div => 0xa8e
  | .OpNegate => 0xa8f
  | .OpAbs => 0xa90
  | .OpNot => 0xa91
  | .Op0NotEqual => 0xa92
  | .OpAdd => 0xa93
  | .OpSub => 0xa94
  | .OpMul => 0xa95
  | .OpDiv => 0xa96
  | .OpMod => 0xa97
  | .OpLShift => 0xa98
  | .OpRShift => 0xa99
  | .OpBoolAnd => 0xa9a
  | .OpBoolOr => 0xa9b
  | .OpNumEqual => 0xa9c
  | .OpNumEqualVerify => 0xa9d
  | .OpNumNotEqual => 0xa9e
  | .OpLessThan => 0xa9f
  | .OpGreaterThan => 0xaa0
  | .OpLessThanOrEqual => 0xaa1
  | .OpGreaterThanOrEqual => 0xaa2
  | .OpMin => 0xaa3
  | .OpMax => 0xaa4
  | .OpWithin => 0xaa5
  | .OpUnknown166 => 0xaa6
  | .OpUnknown167 => 0xaa7
  | .OpSha256 => 0xaa8
  | .OpCheckMultiSigECDSA => 0xaa9
  | .OpBlake2b => 0xaaa
  | .OpCheckSigECDSA => 0xaab
  | .OpCheckSig => 0xaac
  | .OpCheckSigVerify => 0xaad
  | .OpCheckMultiSig => 0xaae
  | .OpCheckMultiSigVerify => 0xaaf
  | .OpCheckLockTimeVerify => 0xab0
  | .OpCheckSequenceVerify => 0xab1
  | .OpUnknown178 => 0xab2
  | .OpUnknown179 => 0xab3
  | .OpUnknown180 => 0xab4
  | .OpUnknown181 => 0xab5
  | .OpUnknown182 => 0xab6
  | .OpUnknown183 => 0xab7
  | .OpUnknown184 => 0xab8
  | .OpUnknown185 => 0xab9
  | .OpUnknown186 => 0xaba
  | .OpUnknown187 => 0xabb
  | .OpUnknown188 => 0xabc
  | .OpUnknown189 => 0xabd
  | .OpUnknown190 => 0xabe
  | .OpUnknown191 => 0xabf
  | .OpUnknown192 => 0xac0
  | .OpUnknown193 => 0xac1
  | .OpUnknown194 => 0xac2
  | .OpUnknown195 => 0xac3
  | .OpUnknown196 => 0xac4
  | .OpUnknown197 => 0xac5
  | .OpUnknown198 => 0xac6
  | .OpUnknown199 => 0xac7
  | .OpUnknown200 => 0xac8
  | .OpUnknown201 => 0xac9
  | .OpUnknown202 => 0xaca
  | .OpUnknown203 => 0xacb
  | .OpUnknown204 => 0xacc
  | .OpUnknown205 => 0xacd
  | .OpUnknown206 => 0xace
  | .OpUnknown207 => 0xacf
  | .OpUnknown208 => 0xad0
  | .OpUnknown209 => 0xad1
  | .OpUnknown210 => 0xad2
  | .OpUnknown211 => 0xad3
  | .OpUnknown212 => 0xad4
  | .OpUnknown213 => 0xad5
  | .OpUnknown214 => 0xad6
  | .OpUnknown215 => 0xad7
  | .OpUnknown216 => 0xad8
  | .OpUnknown217 => 0xad9
  | .OpUnknown218 => 0xada
  | .OpUnknown219 => 0xadb
  | .OpUnknown220 => 0xadc
  | .OpUnknown221 => 0xadd
  | .OpUnknown222 => 0xade
  | .OpUnknown223 => 0xadf
  | .OpUnknown224 => 0xae0
  | .OpUnknown225 => 0xae1
  | .OpUnknown226 => 0xae2
  | .OpUnknown227 => 0xae3
  | .OpUnknown228 => 0xae4
  | .OpUnknown229 => 0xae5
  | .OpUnknown230 => 0xae6
  | .OpUnknown231 => 0xae7
  | .OpUnknown232 => 0xae8
  | .OpUnknown233 => 0xae9
  | .OpUnknown234 => 0xaea
  | .OpUnknown235 => 0xaeb
  | .OpUnknown236 => 0xaec
  | .OpUnknown237 => 0xaed
  | .OpUnknown238 => 0xaee
  | .OpUnknown239 => 0xaef
  | .OpUnknown240 => 0xaf0
  | .OpUnknown241 => 0xaf1
  | .OpUnknown242 => 0xaf2
  | .OpUnknown243 => 0xaf3
  | .OpUnknown244 => 0xaf4
  | .OpUnknown245 => 0xaf5
  | .OpUnknown246 => 0xaf6
  | .OpUnknown247 => 0xaf7
  | .OpUnknown248 => 0xaf8
  | .OpUnknown249 => 0xaf9
  | .OpSmallInteger => 0xafa
  | .OpPubKeys => 0xafb
  | .OpUnknown252 => 0xafc
  | .OpPubKeyHash => 0xafd
  | .OpPubKey => 0xafe
  | .OpInvalidOpCode => 0xaff

/-- C4: the exported opcode table does not map onto byte values: the
source assigns `OpData1 = 0xa01` (2561), not `0x01`, and likewise every
listed assignment is `0xa00` higher than the byte value the claim states;
no opcode at all is assigned a value in `0x00..=0xFF`, so the table is
not a bijection onto the bytes. -/
theorem opcode_table_corrupted :
    Opcode.value .OpData1 = 0xa01 ∧ (0xa01 : Nat) ≠ 0x01 ∧
    Opcode.value .OpPushData1 = 0xa4c ∧ (0xa4c : Nat) ≠ 0x4c ∧
    Opcode.value .Op1Negate = 0xa4f ∧ (0xa4f : Nat) ≠ 0x4f ∧
    Opcode.value .Op1 = 0xa51 ∧
    Opcode.value .Op16 = 0xa60 ∧
    Opcode.value .OpReturn = 0xa6a ∧
    Opcode.value .OpDup = 0xa76 ∧
    Opcode.value .OpEqualVerify = 0xa88 ∧
    Opcode.value .OpCheckSig = 0xaac ∧
    Opcode.value .OpInvalidOpCode = 0xaff ∧
    (∀ op : Opcode, ¬ Opcode.value op ≤ 0xff) := by
  refine ⟨rfl, by decide, rfl, by decide, rfl, by decide, rfl, rfl, rfl, rfl,
    rfl, rfl, rfl, ?_⟩
  intro op
  cases op <;> decide

/-! ### Output value ranges (C7) -/

/-- The exact (unbounded) sum of a list of output values. -/
def sumVals (l : List TransactionOutput) : Nat := (l.map (fun o => o.value)).sum

/-- Every output of the list passes the value checks with the running sum
started at `total`: nonzero, at most `M`, and the running sum stays at
most `M`. -/
def allPass (M : Nat) : Nat → List TransactionOutput → Prop
  | _, [] => True
  | total, o :: rest =>
    o.value ≠ 0 ∧ o.value ≤ M ∧ total + o.value ≤ M ∧ allPass M (total + o.value) rest

theorem sumVals_nil : sumVals [] = 0 := rfl

theorem sumVals_cons (o : TransactionOutput) (l : List TransactionOutput) :
    sumVals (o :: l) = o.value + sumVals l := by
  simp [sumVals]

theorem nil_no_decomp {α : Type} (l1 : List α) (o : α) (l2 : List α) :
    ([] : List α) ≠ l1 ++ o :: l2 := by
  cases l1 <;> simp

theorem value_scan_ok_iff (M : Nat) (hM : M ≤ U64_MAX) :
    ∀ (l : List TransactionOutput) (i0 total : Nat),
      (value_ranges_scan M i0 total l = .ok () ↔ allPass M total l) := by
  intro l
  induction l with
  | nil => intro i0 total; simp [value_ranges_scan, allPass]
  | cons o rest ih =>
    intro i0 total
    simp only [value_ranges_scan, allPass]
    by_cases h0 : o.value = 0
    · rw [if_pos h0]
      simp [h0]
    · rw [if_neg h0]
      by_cases h1 : o.value > M
      · rw [if_pos h1]
        simp [h0, Nat.not_le.mpr h1]
      · rw [if_neg h1]
        by_cases h2 : total + o.value > U64_MAX
        · rw [if_pos h2]
          have hnle : ¬ (total + o.value ≤ M) := by omega
          simp [hnle]
        · rw [if_neg h2]
          by_cases h3 : total + o.value > M
          · rw [if_pos h3]
            have hnle : ¬ (total + o.value ≤ M) := by omega
            simp [hnle]
          · rw [if_neg h3]
            rw [ih (i0 + 1) (total + o.value)]
            simp [h0, Nat.not_lt.mp h1, Nat.not_lt.mp h3]

theorem value_scan_zero_iff (M : Nat) (hM : M ≤ U64_MAX) :
    ∀ (l : List TransactionOutput) (i0 total k : Nat),
      (value_ranges_scan M i0 total l = .error (.TxOutZero k)) ↔
        ∃ l1 o l2, l = l1 ++ o :: l2 ∧ k = i0 + l1.length ∧
          allPass M total l1 ∧ o.value = 0 := by
  intro l
  induction l with
  | nil =>
    intro i0 total k
    constructor
    · intro h; simp [value_ranges_scan] at h
    · rintro ⟨l1, o, l2, habs, -⟩
      exact absurd habs (nil_no_decomp l1 o l2)
  | cons o rest ih =>
    intro i0 total k
    simp only [value_ranges_scan]
    by_cases h0 : o.value = 0
    · rw [if_pos h0]
      constructor
      · intro h
        injection h with h2
        injection h2 with h3
        exact ⟨[], o, rest, rfl, by simp [h3], True.intro, h0⟩
      · rintro ⟨l1, o2, l2, hdec, hk, hpass, hzero⟩
        cases l1 with
        | nil =>
          rw [List.nil_append] at hdec
          injection hdec with he1 he2
          simp at hk
          rw [hk]
        | cons o1 l1' =>
          rw [List.cons_append] at hdec
          injection hdec with he1 he2
          simp only [allPass] at hpass
          exact absurd (he1 ▸ h0) hpass.1
    · rw [if_neg h0]
      by_cases h1 : o.value > M
      · rw [if_pos h1]
        constructor
        · intro h; simp at h
        · rintro ⟨l1, o2, l2, hdec, hk, hpass, hzero⟩
          cases l1 with
          | nil =>
            rw [List.nil_append] at hdec
            injection hdec with he1 he2
            have hz : o.value = 0 := by rw [he1]; exact hzero
            exact absurd hz h0
          | cons o1 l1' =>
            rw [List.cons_append] at hdec
            injection hdec with he1 he2
            simp only [allPass] at hpass
            have hle : o.value ≤ M := by rw [he1]; exact hpass.2.1
            omega
      · rw [if_neg h1]
        by_cases h2 : total + o.value > U64_MAX
        · rw [if_pos h2]
          constructor
          · intro h; simp at h
          · rintro ⟨l1, o2, l2, hdec, hk, hpass, hzero⟩
            cases l1 with
            | nil =>
              rw [List.nil_append] at hdec
              injection hdec with he1 he2
              have hz : o.value = 0 := by rw [he1]; exact hzero
              exact absurd hz h0
            | cons o1 l1' =>
              rw [List.cons_append] at hdec
              injection hdec with he1 he2
              simp only [allPass] at hpass
              have hle : total + o.value ≤ M := by rw [he1]; exact hpass.2.2.1
              omega
        · rw [if_neg h2]
          by_cases h3 : total + o.value > M
          · rw [if_pos h3]
            constructor
            · intro h; simp at h
            · rintro ⟨l1, o2, l2, hdec, hk, hpass, hzero⟩
              cases l1 with
              | nil =>
                rw [List.nil_append] at hdec
                injection hdec with he1 he2
                have hz : o.value = 0 := by rw [he1]; exact hzero
                exact absurd hz h0
              | cons o1 l1' =>
                rw [List.cons_append] at hdec
                injection hdec with he1 he2
                simp only [allPass] at hpass
                have hle : total + o.value ≤ M := by rw [he1]; exact hpass.2.2.1
                omega
          · rw [if_neg h3]
            rw [ih (i0 + 1) (total + o.value) k]
            constructor
            · rintro ⟨l1', o2, l2, hdec, hk, hpass, hzero⟩
              refine ⟨o :: l1', o2, l2, ?_, ?_, ?_, hzero⟩
              · rw [List.cons_append, hdec]
              · simp only [List.length_cons]
                omega
              · simp only [allPass]
                exact ⟨h0, Nat.not_lt.mp h1, Nat.not_lt.mp h3, hpass⟩
            · rintro ⟨l1, o2, l2, hdec, hk, hpass, hzero⟩
              cases l1 with
              | nil =>
                rw [List.nil_append] at hdec
                injection hdec with he1 he2
                have hz : o.value = 0 := by rw [he1]; exact hzero
                exact absurd hz h0
              | cons o1 l1' =>
                rw [List.cons_append] at hdec
                injection hdec with he1 he2
                simp only [allPass] at hpass
                refine ⟨l1', o2, l2, he2, ?_, ?_, hzero⟩
                · simp only [List.length_cons] at hk
                  omega
                · rw [he1]
                  exact hpass.2.2.2

theorem value_scan_toohigh_iff (M : Nat) (hM : M ≤ U64_MAX) :
    ∀ (l : List TransactionOutput) (i0 total k : Nat),
      (value_ranges_scan M i0 total l = .error (.TxOutTooHigh k)) ↔
        ∃ l1 o l2, l = l1 ++ o :: l2 ∧ k = i0 + l1.length ∧
          allPass M total l1 ∧ o.value ≠ 0 ∧ M < o.value := by
  intro l
  induction l with
  | nil =>
    intro i0 total k
    constructor
    · intro h; simp [value_ranges_scan] at h
    · rintro ⟨l1, o, l2, habs, -⟩
      exact absurd habs (nil_no_decomp l1 o l2)
  | cons o rest ih =>
    intro i0 total k
    simp only [value_ranges_scan]
    by_cases h0 : o.value = 0
    · rw [if_pos h0]
      constructor
      · intro h; simp at h
      · rintro ⟨l1, o2, l2, hdec, hk, hpass, hne, hhigh⟩
        cases l1 with
        | nil =>
          rw [List.nil_append] at hdec
          injection hdec with he1 he2
          exact absurd (he1 ▸ h0) hne
        | cons o1 l1' =>
          rw [List.cons_append] at hdec
          injection hdec with he1 he2
          simp only [allPass] at hpass
          exact absurd (he1 ▸ h0) hpass.1
    · rw [if_neg h0]
      by_cases h1 : o.value > M
      · rw [if_pos h1]
        constructor
        · intro h
          injection h with h2
          injection h2 with h3
          exact ⟨[], o, rest, rfl, by simp [h3], True.intro, h0, h1⟩
        · rintro ⟨l1, o2, l2, hdec, hk, hpass, hne, hhigh⟩
          cases l1 with
          | nil =>
            rw [List.nil_append] at hdec
            injection hdec with he1 he2
            simp at hk
            rw [hk]
          | cons o1 l1' =>
            rw [List.cons_append] at hdec
            injection hdec with he1 he2
            simp only [allPass] at hpass
            have hle : o.value ≤ M := by rw [he1]; exact hpass.2.1
            omega
      · rw [if_neg h1]
        by_cases h2 : total + o.value > U64_MAX
        · rw [if_pos h2]
          constructor
          · intro h; simp at h
          · rintro ⟨l1, o2, l2, hdec, hk, hpass, hne, hhigh⟩
            cases l1 with
            | nil =>
              rw [List.nil_append] at hdec
              injection hdec with he1 he2
              have hle : ¬ (M < o.value) := by rw [he1] at h1 ⊢; omega
              exact absurd (by rw [← he1] at hhigh; exact hhigh) hle
            | cons o1 l1' =>
              rw [List.cons_append] at hdec
              injection hdec with he1 he2
              simp only [allPass] at hpass
              have hle : total + o.value ≤ M := by rw [he1]; exact hpass.2.2.1
              omega
        · rw [if_neg h2]
          by_cases h3 : total + o.value > M
          · rw [if_pos h3]
            constructor
            · intro h; simp at h
            · rintro ⟨l1, o2, l2, hdec, hk, hpass, hne, hhigh⟩
              cases l1 with
              | nil =>
                rw [List.nil_append] at hdec
                injection hdec with he1 he2
                have hle : o.value ≤ M := Nat.not_lt.mp h1
                have : M < o.value := by rw [he1]; exact hhigh
                omega
              | cons o1 l1' =>
                rw [List.cons_append] at hdec
                injection hdec with he1 he2
                simp only [allPass] at hpass
                have hle : total + o.value ≤ M := by rw [he1]; exact hpass.2.2.1
                omega
          · rw [if_neg h3]
            rw [ih (i0 + 1) (total + o.value) k]
            constructor
            · rintro ⟨l1', o2, l2, hdec, hk, hpass, hne, hhigh⟩
              refine ⟨o :: l1', o2, l2, ?_, ?_, ?_, hne, hhigh⟩
              · rw [List.cons_append, hdec]
              · simp only [List.length_cons]
                omega
              · simp only [allPass]
                exact ⟨h0, Nat.not_lt.mp h1, Nat.not_lt.mp h3, hpass⟩
            · rintro ⟨l1, o2, l2, hdec, hk, hpass, hne, hhigh⟩
              cases l1 with
              | nil =>
                rw [List.nil_append] at hdec
                injection hdec with he1 he2
                have : M < o.value := by rw [he1]; exact hhigh
                omega
              | cons o1 l1' =>
                rw [List.cons_append] at hdec
                injection hdec with he1 he2
                simp only [allPass] at hpass
                refine ⟨l1', o2, l2, he2, ?_, ?_, hne, hhigh⟩
                · simp only [List.length_cons] at hk
                  omega
                · rw [he1]
                  exact hpass.2.2.2

theorem value_scan_overflow_iff (M : Nat) (hM : M ≤ U64_MAX) :
    ∀ (l : List TransactionOutput) (i0 total : Nat),
      (value_ranges_scan M i0 total l = .error .OutputsValueOverflow) ↔
        ∃ l1 o l2, l = l1 ++ o :: l2 ∧ allPass M total l1 ∧
          o.value ≠ 0 ∧ o.value ≤ M ∧ U64_MAX < total + sumVals l1 + o.value := by
  intro l
  induction l with
  | nil =>
    intro i0 total
    constructor
    · intro h; simp [value_ranges_scan] at h
    · rintro ⟨l1, o, l2, habs, -⟩
      exact absurd habs (nil_no_decomp l1 o l2)
  | cons o rest ih =>
    intro i0 total
    simp only [value_ranges_scan]
    by_cases h0 : o.value = 0
    · rw [if_pos h0]
      constructor
      · intro h; simp at h
      · rintro ⟨l1, o2, l2, hdec, hpass, hne, hleM, hineq⟩
        cases l1 with
        | nil =>
          rw [List.nil_append] at hdec
          injection hdec with he1 he2
          exact absurd (he1 ▸ h0) hne
        | cons o1 l1' =>
          rw [List.cons_append] at hdec
          injection hdec with he1 he2
          simp only [allPass] at hpass
          exact absurd (he1 ▸ h0) hpass.1
    · rw [if_neg h0]
      by_cases h1 : o.value > M
      · rw [if_pos h1]
        constructor
        · intro h; simp at h
        · rintro ⟨l1, o2, l2, hdec, hpass, hne, hleM, hineq⟩
          cases l1 with
          | nil =>
            rw [List.nil_append] at hdec
            injection hdec with he1 he2
            have hle : o.value ≤ M := by rw [he1]; exact hleM
            omega
          | cons o1 l1' =>
            rw [List.cons_append] at hdec
            injection hdec with he1 he2
            simp only [allPass] at hpass
            have hle : o.value ≤ M := by rw [he1]; exact hpass.2.1
            omega
      · rw [if_neg h1]
        by_cases h2 : total + o.value > U64_MAX
        · rw [if_pos h2]
          constructor
          · intro _
            refine ⟨[], o, rest, rfl, True.intro, h0, Nat.not_lt.mp h1, ?_⟩
            simp only [sumVals_nil]
            omega
          · intro _; rfl
        · rw [if_neg h2]
          by_cases h3 : total + o.value > M
          · rw [if_pos h3]
            constructor
            · intro h; simp at h
            · rintro ⟨l1, o2, l2, hdec, hpass, hne, hleM, hineq⟩
              cases l1 with
              | nil =>
                rw [List.nil_append] at hdec
                injection hdec with he1 he2
                rw [← he1] at hineq
                simp only [sumVals_nil] at hineq
                omega
              | cons o1 l1' =>
                rw [List.cons_append] at hdec
                injection hdec with he1 he2
                simp only [allPass] at hpass
                have hle : total + o.value ≤ M := by rw [he1]; exact hpass.2.2.1
                omega
          · rw [if_neg h3]
            rw [ih (i0 + 1) (total + o.value)]
            constructor
            · rintro ⟨l1', o2, l2, hdec, hpass, hne, hleM, hineq⟩
              refine ⟨o :: l1', o2, l2, ?_, ?_, hne, hleM, ?_⟩
              · rw [List.cons_append, hdec]
              · simp only [allPass]
                exact ⟨h0, Nat.not_lt.mp h1, Nat.not_lt.mp h3, hpass⟩
              · rw [sumVals_cons]
                omega
            · rintro ⟨l1, o2, l2, hdec, hpass, hne, hleM, hineq⟩
              cases l1 with
              | nil =>
                rw [List.nil_append] at hdec
                injection hdec with he1 he2
                rw [← he1] at hineq
                simp only [sumVals_nil] at hineq
                omega
              | cons o1 l1' =>
                rw [List.cons_append] at hdec
                injection hdec with he1 he2
                simp only [allPass] at hpass
                subst he1
                refine ⟨l1', o2, l2, he2, hpass.2.2.2, hne, hleM, ?_⟩
                rw [sumVals_cons] at hineq
                omega

theorem value_scan_totalhigh_iff (M : Nat) (hM : M ≤ U64_MAX) :
    ∀ (l : List TransactionOutput) (i0 total : Nat),
      (value_ranges_scan M i0 total l = .error .TotalTxOutTooHigh) ↔
        ∃ l1 o l2, l = l1 ++ o :: l2 ∧ allPass M total l1 ∧
          o.value ≠ 0 ∧ o.value ≤ M ∧
          total + sumVals l1 + o.value ≤ U64_MAX ∧
          M < total + sumVals l1 + o.value := by
  intro l
  induction l with
  | nil =>
    intro i0 total
    constructor
    · intro h; simp [value_ranges_scan] at h
    · rintro ⟨l1, o, l2, habs, -⟩
      exact absurd habs (nil_no_decomp l1 o l2)
  | cons o rest ih =>
    intro i0 total
    simp only [value_ranges_scan]
    by_cases h0 : o.value = 0
    · rw [if_pos h0]
      constructor
      · intro h; simp at h
      · rintro ⟨l1, o2, l2, hdec, hpass, hne, hleM, -, -⟩
        cases l1 with
        | nil =>
          rw [List.nil_append] at hdec
          injection hdec with he1 he2
          exact absurd (he1 ▸ h0) hne
        | cons o1 l1' =>
          rw [List.cons_append] at hdec
          injection hdec with he1 he2
          simp only [allPass] at hpass
          exact absurd (he1 ▸ h0) hpass.1
    · rw [if_neg h0]
      by_cases h1 : o.value > M
      · rw [if_pos h1]
        constructor
        · intro h; simp at h
        · rintro ⟨l1, o2, l2, hdec, hpass, hne, hleM, -, -⟩
          cases l1 with
          | nil =>
            rw [List.nil_append] at hdec
            injection hdec with he1 he2
            have hle : o.value ≤ M := by rw [he1]; exact hleM
            omega
          | cons o1 l1' =>
            rw [List.cons_append] at hdec
            injection hdec with he1 he2
            simp only [allPass] at hpass
            have hle : o.value ≤ M := by rw [he1]; exact hpass.2.1
            omega
      · rw [if_neg h1]
        by_cases h2 : total + o.value > U64_MAX
        · rw [if_pos h2]
          constructor
          · intro h; simp at h
          · rintro ⟨l1, o2, l2, hdec, hpass, hne, hleM, hfit, hover⟩
            cases l1 with
            | nil =>
              rw [List.nil_append] at hdec
              injection hdec with he1 he2
              rw [← he1] at hfit
              simp only [sumVals_nil] at hfit
              omega
            | cons o1 l1' =>
              rw [List.cons_append] at hdec
              injection hdec with he1 he2
              simp only [allPass] at hpass
              have hle : total + o.value ≤ M := by rw [he1]; exact hpass.2.2.1
              omega
        · rw [if_neg h2]
          by_cases h3 : total + o.value > M
          · rw [if_pos h3]
            constructor
            · intro _
              refine ⟨[], o, rest, rfl, True.intro, h0, Nat.not_lt.mp h1, ?_, ?_⟩ <;>
                simp only [sumVals_nil] <;> omega
            · intro _; rfl
          · rw [if_neg h3]
            rw [ih (i0 + 1) (total + o.value)]
            constructor
            · rintro ⟨l1', o2, l2, hdec, hpass, hne, hleM, hfit, hover⟩
              refine ⟨o :: l1', o2, l2, ?_, ?_, hne, hleM, ?_, ?_⟩
              · rw [List.cons_append, hdec]
              · simp only [allPass]
                exact ⟨h0, Nat.not_lt.mp h1, Nat.not_lt.mp h3, hpass⟩
              · rw [sumVals_cons]
                omega
              · rw [sumVals_cons]
                omega
            · rintro ⟨l1, o2, l2, hdec, hpass, hne, hleM, hfit, hover⟩
              cases l1 with
              | nil =>
                rw [List.nil_append] at hdec
                injection hdec with he1 he2
                rw [← he1] at hover
                simp only [sumVals_nil] at hover
                omega
              | cons o1 l1' =>
                rw [List.cons_append] at hdec
                injection hdec with he1 he2
                simp only [allPass] at hpass
                subst he1
                refine ⟨l1', o2, l2, he2, hpass.2.2.2, hne, hleM, ?_, ?_⟩
                · rw [sumVals_cons] at hfit
                  omega
                · rw [sumVals_cons] at hover
                  omega

/-- C7: the output-value-range check scans outputs left to right; it
fails with `TxOutZero i` exactly when the output at index `i` has value
zero and every earlier output passed; with `TxOutTooHigh i` exactly when
the output at `i` exceeds `MAX_SOMPI` after all earlier outputs passed;
with `OutputsValueOverflow` exactly when adding some output's value
overflows the u64 running sum of a fully-passing prefix; with
`TotalTxOutTooHigh` exactly when the running sum fits u64 but exceeds
`MAX_SOMPI`; and it passes exactly when no output triggers any of these
conditions. -/
theorem check_transaction_output_value_ranges_spec (v : TransactionValidator)
    (tx : Transaction) (hM : v.max_sompi ≤ U64_MAX) :
    (check_transaction_output_value_ranges v tx = .ok () ↔
      allPass v.max_sompi 0 tx.outputs) ∧
    (∀ k, check_transaction_output_value_ranges v tx = .error (.TxOutZero k) ↔
      ∃ l1 o l2, tx.outputs = l1 ++ o :: l2 ∧ k = l1.length ∧
        allPass v.max_sompi 0 l1 ∧ o.value = 0) ∧
    (∀ k, check_transaction_output_value_ranges v tx = .error (.TxOutTooHigh k) ↔
      ∃ l1 o l2, tx.outputs = l1 ++ o :: l2 ∧ k = l1.length ∧
        allPass v.max_sompi 0 l1 ∧ o.value ≠ 0 ∧ v.max_sompi < o.value) ∧
    (check_transaction_output_value_ranges v tx = .error .OutputsValueOverflow ↔
      ∃ l1 o l2, tx.outputs = l1 ++ o :: l2 ∧ allPass v.max_sompi 0 l1 ∧
        o.value ≠ 0 ∧ o.value ≤ v.max_sompi ∧ U64_MAX < sumVals l1 + o.value) ∧
    (check_transaction_output_value_ranges v tx = .error .TotalTxOutTooHigh ↔
      ∃ l1 o l2, tx.outputs = l1 ++ o :: l2 ∧ allPass v.max_sompi 0 l1 ∧
        o.value ≠ 0 ∧ o.value ≤ v.max_sompi ∧
        sumVals l1 + o.value ≤ U64_MAX ∧ v.max_sompi < sumVals l1 + o.value) := by
  refine ⟨value_scan_ok_iff v.max_sompi hM tx.outputs 0 0, ?_, ?_, ?_, ?_⟩
  · intro k
    simpa using value_scan_zero_iff v.max_sompi hM tx.outputs 0 0 k
  · intro k
    simpa using value_scan_toohigh_iff v.max_sompi hM tx.outputs 0 0 k
  · simpa using value_scan_overflow_iff v.max_sompi hM tx.outputs 0 0
  · simpa using value_scan_totalhigh_iff v.max_sompi hM tx.outputs 0 0

/-- An output of value zero. -/
def zeroOut : TransactionOutput :=
  { value := 0, script_public_key := { version := 0, script := [] } }

/-- A transaction whose second output has value zero. -/
def txZeroOut : Transaction :=
  { version := 0, inputs := [inpSpendingTen], outputs := [outSmall, zeroOut],
    lock_time := 0, subnetwork_id := SUBNETWORK_ID_NATIVE, gas := 0, payload := [],
    mass := 0, id := 50 }

/-- Witness for C7: the scan reports the zero-valued output at index 1. -/
theorem value_ranges_witness :
    check_transaction_output_value_ranges cfgV txZeroOut = .error (.TxOutZero 1) :=
  ((check_transaction_output_value_ranges_spec cfgV txZeroOut (by decide)).2.1 1).mpr
    ⟨[outSmall], zeroOut, [], rfl, rfl, ⟨by decide, by decide, by decide, trivial⟩, rfl⟩

/-- A native transaction with two distinct-outpoint inputs. -/
def permTx : Transaction :=
  { version := 0, inputs := [inpSpendingTen, inpSpendingX], outputs := [],
    lock_time := 0, subnetwork_id := SUBNETWORK_ID_NATIVE, gas := 0, payload := [],
    mass := 0, id := 40 }

/-- Witness for C8: swapping the two inputs of `permTx` does not change
acceptance. -/
theorem validate_tx_perm_witness :
    cfgV.validate_tx_in_isolation { permTx with inputs := [inpSpendingX, inpSpendingTen] }
        = .ok () ↔
      cfgV.validate_tx_in_isolation permTx = .ok () :=
  validate_tx_in_isolation_perm_invariant cfgV permTx [inpSpendingX, inpSpendingTen]
    (by decide) (by decide)

end Kaspa
